import Mathlib

/-!
# eticket-to-google-calendar: a shallow embedding of `main.go`

The program reads an itinerary from standard input, cuts it into blocks of six
lines, turns every block into a `Flight`, and submits one calendar event per
flight.  This file embeds the functions of `main.go` as Lean definitions and
proves properties of them.

Conventions of the embedding:

* Go `string` values are Lean `String`s; the only byte the program itself
  inspects is the newline, and every other inspection is ASCII-level.
* Go `int` is `Nat`/`Int`; the indices of the program are bounded by the
  length of a slice held in memory, so no 64-bit wrap-around can occur.
* A Go function that can end the process returns a `Result`: `ok` for a normal
  return, `panic msg` for a panic, `fatal format` for `log.Fatalf(format, err)`
  (the format string is kept, the rendered error is not), and `timeout` when
  the fuel of a loop model is used up.
-/

set_option maxRecDepth 100000

namespace ETicket

/-! ## Outcomes -/

/-- Outcome of running a piece of the program. -/
inductive Result (α : Type) where
  | ok : α → Result α
  | panic : String → Result α
  | fatal : String → Result α
  | timeout : Result α
  deriving DecidableEq, Repr

/-! ## Data model (`main.go`, lines 19-25) -/

/-- The `Flight` struct. -/
structure Flight where
  FlightNumber : String
  StartDateTime : String
  StartLoc : String
  EndDateTime : String
  EndLoc : String
  deriving DecidableEq, Repr

/-! ## Splitting the input (`strings.Split(string(data), "\n")`, line 66) -/

/-- Split a character sequence at every newline: the pieces between the
newlines, in order; there is always one piece more than there are newlines. -/
def splitNewline : List Char → List (List Char)
  | [] => [[]]
  | c :: cs =>
    if c = '\n' then [] :: splitNewline cs
    else
      match splitNewline cs with
      | [] => [[c]]
      | l :: ls => (c :: l) :: ls

/-- Model of `strings.Split(s, "\n")`. -/
def Split (s : String) : List String :=
  (splitNewline s.data).map String.mk

/-- Number of newline characters of the input. -/
def newlineCount (s : String) : Nat :=
  s.data.count '\n'

/-! ## The chunking loop of `main` (lines 68-88) -/

/-- The constant `chunkSize := 6`. -/
def chunkSize : Nat := 6

/-- The loop `for i := 0; i < len(lines); i += chunkSize`, started at index `i`
with the slice `flights` built so far.  Every `lines[j]` is a checked access:
an index outside the slice is the Go runtime panic.  `fuel` bounds the number
of iterations.  The `fmt.Printf` of each record is diagnostic output and is
left out. -/
def parseLoop (lines : List String) : Nat → Nat → List Flight → Result (List Flight)
  | 0, _, _ => .timeout
  | fuel + 1, i, flights =>
    if i < lines.length then
      let «end» := i + chunkSize
      if «end» > lines.length then
        .ok flights
      else
        match lines[i]?, lines[i + 1]?, lines[i + 2]?, lines[i + 3]?, lines[i + 4]? with
        | some l0, some l1, some l2, some l3, some l4 =>
          let flight : Flight :=
            { FlightNumber := l0
              StartDateTime := l1
              StartLoc := l2
              EndDateTime := l3
              EndLoc := l4 }
          parseLoop lines fuel (i + chunkSize) (flights ++ [flight])
        | _, _, _, _, _ => .panic "runtime error: index out of range"
    else
      .ok flights

/-- The parser loop of `main` on a slice of lines: `var flights []Flight`
followed by the loop from index `0`.  One iteration per started block plus the
final test is at most `len(lines) + 1` iterations. -/
def parseLines (lines : List String) : Result (List Flight) :=
  parseLoop lines (lines.length + 1) 0 []

/-- The parsing part of `main`: split the input, then run the loop. -/
def parse (data : String) : Result (List Flight) :=
  parseLines (Split data)

/-! ## `locationToZone` (lines 41-57) -/

/-- The `switch` of `locationToZone`; the `default` branch panics. -/
def locationToZone (loc : String) : Result String :=
  if loc = "Hong Kong" then .ok "Asia/Hong_Kong"
  else if loc = "Tokyo(Haneda)" then .ok "Asia/Tokyo"
  else if loc = "Tokyo(Narita)" then .ok "Asia/Tokyo"
  else if loc = "Vancouver" then .ok "Canada/Pacific"
  else if loc = "Montreal" then .ok "Canada/Eastern"
  else .panic "unrecognized location"

/-- The five location names of the `switch`. -/
def knownLocations : List String :=
  ["Hong Kong", "Tokyo(Haneda)", "Tokyo(Narita)", "Vancouver", "Montreal"]

/-! ## The outside world of `writeToGoogle`

`formattedDateTime` and `writeToGoogle` call into Go's `time` package and into
the calendar client.  Both are parameters of the embedding: a `Runtime` fixes
what `time.LoadLocation`, `time.ParseInLocation`, `Time.Format(time.RFC3339)`
and `srv.Events.Insert(calID, &event).Do()` return. -/

/-- The fields of `calendar.Event` that the program sets; `Start` and `End`
hold the `DateTime` string of their `calendar.EventDateTime`. -/
structure Event where
  Summary : String
  Description : String
  Start : String
  End : String
  deriving DecidableEq, Repr

/-- The functions of the environment used by `formattedDateTime` and by the
loop of `writeToGoogle`. -/
structure Runtime where
  /-- Values of `*time.Location`. -/
  Location : Type
  /-- Values of `time.Time`. -/
  Time : Type
  /-- Values of `error`. -/
  Err : Type
  /-- Model of `time.LoadLocation(name)`. -/
  loadLocation : String → Except Err Location
  /-- Model of `time.ParseInLocation(layout, value, loc)`. -/
  parseInLocation : String → String → Location → Except Err Time
  /-- Model of `t.Format(time.RFC3339)`. -/
  formatRFC3339 : Time → String
  /-- Model of `srv.Events.Insert(calID, &event).Do()`: the `HtmlLink` of the
  created event, or the error of the call. -/
  insert : Event → Except Err String

/-! ## `formattedDateTime` (lines 27-39) -/

/-- The layout string `ansic` of `formattedDateTime`. -/
def ansic : String := "Jan _2 15:04 2006"

/-- The function `formattedDateTime`: load the location, then parse the text in
it; either error is returned to the caller. -/
def formattedDateTime (rt : Runtime) (inputDateTime inputLoc : String) :
    Except rt.Err rt.Time :=
  match rt.loadLocation inputLoc with
  | .error err => .error err
  | .ok loc =>
    match rt.parseInLocation ansic inputDateTime loc with
    | .error err => .error err
    | .ok result => .ok result

/-! ## The loop of `writeToGoogle` (lines 131-152) -/

/-- What a run of the loop leaves behind: the create-event requests issued, in
order, and the lines printed. -/
structure Trace where
  calls : List Event
  stdout : List String
  deriving DecidableEq, Repr

/-- Lines 132-145 of the loop body: the two date-times are formatted, each in
the zone of its own location, and the event is built.  The arguments of each
call are evaluated before the call, and the start is handled before the end. -/
def buildEvent (rt : Runtime) (flight : Flight) : Result Event :=
  match locationToZone flight.StartLoc with
  | .panic msg => .panic msg
  | .fatal msg => .fatal msg
  | .timeout => .timeout
  | .ok startZone =>
    match formattedDateTime rt flight.StartDateTime startZone with
    | .error _ => .fatal "Unable to format date time: %v"
    | .ok s =>
      match locationToZone flight.EndLoc with
      | .panic msg => .panic msg
      | .fatal msg => .fatal msg
      | .timeout => .timeout
      | .ok endZone =>
        match formattedDateTime rt flight.EndDateTime endZone with
        | .error _ => .fatal "Unable to format date time: %v"
        | .ok e =>
          .ok { Summary := "[Auto] " ++ flight.FlightNumber
                Description := flight.StartLoc ++ " > " ++ flight.EndLoc
                Start := rt.formatRFC3339 s
                End := rt.formatRFC3339 e }

/-- The loop `for _, flight := range flights`, with the trace so far.  The
request is recorded when it is issued, before its result is known. -/
def submitLoop (rt : Runtime) : List Flight → Trace → Trace × Result Unit
  | [], trace => (trace, .ok ())
  | flight :: rest, trace =>
    match buildEvent rt flight with
    | .panic msg => (trace, .panic msg)
    | .fatal msg => (trace, .fatal msg)
    | .timeout => (trace, .timeout)
    | .ok event =>
      match rt.insert event with
      | .error _ =>
        ({ trace with calls := trace.calls ++ [event] }, .fatal "Unable to insert: %v")
      | .ok htmlLink =>
        submitLoop rt rest
          { calls := trace.calls ++ [event]
            stdout := trace.stdout ++ ["Event created: " ++ htmlLink ++ "\n"] }

/-- The loop of `writeToGoogle` on the slice `flights`, from an empty trace.
The credential and client set-up before the loop is not part of the model. -/
def writeToGoogle (rt : Runtime) (flights : List Flight) : Trace × Result Unit :=
  submitLoop rt flights { calls := [], stdout := [] }

/-! ## A model of Go's `time` package

`formattedDateTime` is a thin wrapper around `time.LoadLocation` and
`time.ParseInLocation`, and the event carries `Time.Format(time.RFC3339)`.
What the program does with a date therefore is what the standard library does.
The definitions of this section follow the functions of `time/format.go` and
`time/time.go` that are reached with the layout `"Jan _2 15:04 2006"` on the
parsing side and `time.RFC3339` on the formatting side; they carry the names of
the Go functions they follow.  Values of `string` are lists of characters,
values of `int` are integers without wrap-around (the numbers reached stay far
inside 64 bits), and the time-zone database is a parameter. -/

namespace GoTime

/-- Why `time.Parse` rejected a value: `cannotParse elem` for a value that does
not fit the layout element `elem`, `outOfRange what` for a field out of range,
`extraText` for text after the last element, `unsupportedLayout` for a layout
outside the model. -/
inductive ParseError where
  | cannotParse : String → ParseError
  | outOfRange : String → ParseError
  | extraText : ParseError
  | unsupportedLayout : ParseError
  deriving DecidableEq, Repr

/-- Errors of the `time` package and of the calendar client. -/
inductive Error where
  | unknownTimeZone : String → Error
  | parse : ParseError → Error
  | remote : String → Error
  deriving DecidableEq, Repr

/-- The table `shortMonthNames`. -/
def shortMonthNames : List (List Char) :=
  ["Jan".data, "Feb".data, "Mar".data, "Apr".data, "May".data, "Jun".data,
   "Jul".data, "Aug".data, "Sep".data, "Oct".data, "Nov".data, "Dec".data]

/-- The function `match`: equality of two strings of the same length, ASCII
letters compared without case (`c |= 'a' - 'A'`). -/
def «match» : List Char → List Char → Bool
  | c1 :: s1, c2 :: s2 =>
    if c1 ≠ c2 then
      let d1 := c1.toNat ||| 32
      let d2 := c2.toNat ||| 32
      if d1 ≠ d2 ∨ d1 < 97 ∨ d1 > 122 then false else «match» s1 s2
    else «match» s1 s2
  | _, _ => true

/-- The loop of `lookup(tab, val)` from table index `i` on: the index of the
first entry that `val` starts with, and the rest of `val`. -/
def lookupFrom : List (List Char) → Nat → List Char → Option (Nat × List Char)
  | [], _, _ => none
  | v :: tab, i, val =>
    if val.length ≥ v.length ∧ «match» (val.take v.length) v = true then
      some (i, val.drop v.length)
    else lookupFrom tab (i + 1) val

/-- The function `lookup`. -/
def lookup (tab : List (List Char)) (val : List Char) : Option (Nat × List Char) :=
  lookupFrom tab 0 val

/-- The test `'0' <= c && c <= '9'` of `isDigit`. -/
def isDigitChar (c : Char) : Bool :=
  decide ('0'.toNat ≤ c.toNat ∧ c.toNat ≤ '9'.toNat)

/-- The function `isDigit(s, i)`. -/
def isDigit (s : List Char) (i : Nat) : Bool :=
  match s[i]? with
  | none => false
  | some c => isDigitChar c

/-- The value `int(c - '0')` of a digit. -/
def digitVal (c : Char) : Nat :=
  c.toNat - '0'.toNat

/-- The function `getnum(s, fixed)`: a number of one or two digits (of exactly
two when `fixed`), and the rest of the string. -/
def getnum (s : List Char) (fixed : Bool) : Option (Nat × List Char) :=
  if !isDigit s 0 then none
  else if !isDigit s 1 then
    if fixed then none
    else
      match s with
      | c0 :: rest => some (digitVal c0, rest)
      | [] => none
  else
    match s with
    | c0 :: c1 :: rest => some (digitVal c0 * 10 + digitVal c1, rest)
    | _ => none

/-- The function `cutspace`. -/
def cutspace : List Char → List Char
  | c :: s => if c = ' ' then cutspace s else c :: s
  | [] => []

/-- The function `skip(value, prefix)`: a space of the prefix stands for a run
of spaces of the value; `fuel` bounds the iterations. -/
def skipLoop : Nat → List Char → List Char → Option (List Char)
  | 0, _, _ => none
  | fuel + 1, value, pre =>
    match pre with
    | [] => some value
    | p :: ps =>
      if p = ' ' then
        if value.length > 0 ∧ value.head? ≠ some ' ' then none
        else skipLoop fuel (cutspace value) (cutspace (p :: ps))
      else
        match value with
        | [] => none
        | v :: vs => if v ≠ p then none else skipLoop fuel vs ps

/-- The function `skip`; every iteration shortens the prefix. -/
def skip (value pre : List Char) : Option (List Char) :=
  skipLoop (pre.length + 1) value pre

/-- The loop of `leadingInt`: the digits at the head are accumulated from `x`. -/
def leadingIntLoop : List Char → Nat → Nat × List Char
  | c :: s, x => if isDigitChar c then leadingIntLoop s (x * 10 + digitVal c) else (x, c :: s)
  | [], x => (x, [])

/-- The function `atoi` on the four characters cut out for the year: an
optional sign, then digits only. -/
def atoi (s : List Char) : Option Int :=
  let neg := s.head? = some '-'
  let s := if s.head? = some '-' ∨ s.head? = some '+' then s.tail else s
  match leadingIntLoop s 0 with
  | (x, []) => some (if neg then -(x : Int) else (x : Int))
  | (_, _ :: _) => none

/-- The function `isLeap`. -/
def isLeap (year : Int) : Bool :=
  decide (year % 4 = 0 ∧ (year % 100 ≠ 0 ∨ year % 400 = 0))

/-- The table `daysBefore`. -/
def daysBefore : List Int :=
  [0, 31, 31 + 28, 31 + 28 + 31, 31 + 28 + 31 + 30, 31 + 28 + 31 + 30 + 31,
   31 + 28 + 31 + 30 + 31 + 30, 31 + 28 + 31 + 30 + 31 + 30 + 31,
   31 + 28 + 31 + 30 + 31 + 30 + 31 + 31, 31 + 28 + 31 + 30 + 31 + 30 + 31 + 31 + 30,
   31 + 28 + 31 + 30 + 31 + 30 + 31 + 31 + 30 + 31,
   31 + 28 + 31 + 30 + 31 + 30 + 31 + 31 + 30 + 31 + 30,
   31 + 28 + 31 + 30 + 31 + 30 + 31 + 31 + 30 + 31 + 30 + 31]

/-- The function `daysIn(m, year)`, for a month `m` from 1 to 12. -/
def daysIn (m : Nat) (year : Int) : Int :=
  if m = 2 ∧ isLeap year = true then 29
  else daysBefore.getD m 0 - daysBefore.getD (m - 1) 0

/-- The fields that `parse` collects for the layout `"Jan _2 15:04 2006"`;
seconds and nanoseconds stay zero. -/
structure Fields where
  year : Int
  month : Nat
  day : Nat
  hour : Nat
  min : Nat
  deriving DecidableEq, Repr

/-- The function `parse` run on the layout `"Jan _2 15:04 2006"`: the chunks of
the layout are, in order, `stdMonth`, `" "` `stdUnderDay`, `" "` `stdHour`,
`":"` `stdZeroMinute`, `" "` `stdLongYear`, and the end of the layout; the day
of the month is validated after the last chunk. -/
def parseFields (value : List Char) : Except ParseError Fields :=
  -- chunk `Jan`
  match lookup shortMonthNames value with
  | none => .error (.cannotParse "Jan")
  | some (m, value) =>
    let month := m + 1
    -- chunk ` _2`
    match skip value [' '] with
    | none => .error (.cannotParse " ")
    | some value =>
      let value := if value.head? = some ' ' then value.tail else value
      match getnum value false with
      | none => .error (.cannotParse "_2")
      | some (day, value) =>
        -- chunk ` 15`
        match skip value [' '] with
        | none => .error (.cannotParse " ")
        | some value =>
          match getnum value false with
          | none => .error (.cannotParse "15")
          | some (hour, value) =>
            if 24 ≤ hour then .error (.outOfRange "hour")
            else
              -- chunk `:04`
              match skip value [':'] with
              | none => .error (.cannotParse ":")
              | some value =>
                match getnum value true with
                | none => .error (.cannotParse "04")
                | some (min, value) =>
                  if 60 ≤ min then .error (.outOfRange "minute")
                  else
                    -- chunk ` 2006`
                    match skip value [' '] with
                    | none => .error (.cannotParse " ")
                    | some value =>
                      if value.length < 4 ∨ isDigit value 0 = false then
                        .error (.cannotParse "2006")
                      else
                        match atoi (value.take 4) with
                        | none => .error (.cannotParse "2006")
                        | some year =>
                          -- end of the layout
                          match skip (value.drop 4) [] with
                          | none => .error (.cannotParse "")
                          | some value =>
                            if value.length ≠ 0 then .error .extraText
                            else if (day : Int) < 1 ∨ (day : Int) > daysIn month year then
                              .error (.outOfRange "day")
                            else
                              .ok { year := year, month := month, day := day,
                                    hour := hour, min := min }

/-- The answer of `Location.lookup(sec)`: the offset in seconds east of UTC in
use at the instant `sec`, and the span `[start, stop)` of instants over which
that offset stays in use. -/
structure ZoneSpan where
  offset : Int
  start : Int
  stop : Int
  deriving DecidableEq, Repr

/-- A loaded `*time.Location`, given by its name and its `lookup` method. -/
structure Location where
  name : String
  lookup : Int → ZoneSpan

/-- A `time.Time` with zero nanoseconds: seconds since the Unix epoch and the
location attached by `setLoc`. -/
structure Time where
  unix : Int
  loc : Location

def secondsPerMinute : Int := 60
def secondsPerHour : Int := 60 * secondsPerMinute
def secondsPerDay : Int := 24 * secondsPerHour
def daysPer400Years : Int := 365 * 400 + 97
def daysPer100Years : Int := 365 * 100 + 24
def daysPer4Years : Int := 365 * 4 + 1

/-- The year of the absolute epoch of the package. -/
def absoluteZeroYear : Int := -292277022399

/-- The constant `unixToInternal`. -/
def unixToInternal : Int := (1969 * 365 + 1969 / 4 - 1969 / 100 + 1969 / 400) * secondsPerDay

/-- The constant `absoluteToInternal`, `(absoluteZeroYear - 1) * 365.2425 * secondsPerDay`. -/
def absoluteToInternal : Int := (absoluteZeroYear - 1) * 31556952

def internalToUnix : Int := -unixToInternal
def internalToAbsolute : Int := -absoluteToInternal

/-- The function `norm(hi, lo, base)`. -/
def norm (hi lo base : Int) : Int × Int :=
  let (hi, lo) :=
    if lo < 0 then
      let n := (-lo - 1) / base + 1
      (hi - n, lo + n * base)
    else (hi, lo)
  if lo ≥ base then
    let n := lo / base
    (hi + n, lo - n * base)
  else (hi, lo)

/-- The function `daysSinceEpoch(year)`: days from the absolute epoch to the
first day of `year`. -/
def daysSinceEpoch (year : Int) : Int :=
  let y := year - absoluteZeroYear
  let n := y / 400
  let y := y - 400 * n
  let d := daysPer400Years * n
  let n := y / 100
  let y := y - 100 * n
  let d := d + daysPer100Years * n
  let n := y / 4
  let y := y - 4 * n
  let d := d + daysPer4Years * n
  let n := y
  d + 365 * n

/-- The function `Date(year, month, day, hour, min, sec, nsec, loc)` with
`nsec = 0`: the fields are normalised, counted in seconds as if they were UTC,
and shifted by the offset the location has at that reading. -/
def Date (year : Int) (month : Int) (day hour min sec : Int) (loc : Location) : Time :=
  let m := month - 1
  let (year, m) := norm year m 12
  let month := m + 1
  let (min, sec) := norm min sec 60
  let (hour, min) := norm hour min 60
  let (day, hour) := norm day hour 24
  let d := daysSinceEpoch year
  let d := d + daysBefore.getD (month - 1).toNat 0
  let d := if isLeap year = true ∧ month ≥ 3 then d + 1 else d
  let d := d + (day - 1)
  let abs := d * secondsPerDay
  let abs := abs + (hour * secondsPerHour + min * secondsPerMinute + sec)
  let unix := abs + (absoluteToInternal + internalToUnix)
  let span := loc.lookup unix
  let unix :=
    if span.offset ≠ 0 then
      let utc := unix - span.offset
      let offset :=
        if utc < span.start ∨ utc ≥ span.stop then (loc.lookup utc).offset else span.offset
      unix - offset
    else unix
  { unix := unix, loc := loc }

/-- The function `ParseInLocation` for the layout `"Jan _2 15:04 2006"`: the
layout names no zone, so the fields are read in `loc`. -/
def ParseInLocation (layout value : String) (loc : Location) : Except ParseError Time :=
  if layout = "Jan _2 15:04 2006" then
    match parseFields value.data with
    | .error err => .error err
    | .ok f => .ok (Date f.year f.month f.day f.hour f.min 0 loc)
  else .error .unsupportedLayout

/-- The function `absDate(abs, true)`: year, month and day of an instant
counted in seconds from the absolute epoch. -/
def absDate (abs : Int) : Int × Int × Int :=
  let d := abs / secondsPerDay
  let n := d / daysPer400Years
  let y := 400 * n
  let d := d - daysPer400Years * n
  let n := d / daysPer100Years
  let n := n - n / 4
  let y := y + 100 * n
  let d := d - daysPer100Years * n
  let n := d / daysPer4Years
  let y := y + 4 * n
  let d := d - daysPer4Years * n
  let n := d / 365
  let n := n - n / 4
  let y := y + n
  let d := d - 365 * n
  let year := y + absoluteZeroYear
  let day := d
  if isLeap year = true ∧ day = 31 + 29 - 1 then (year, 2, 29)
  else
    let day := if isLeap year = true ∧ day > 31 + 29 - 1 then day - 1 else day
    let month := day / 31
    let stop := daysBefore.getD (month + 1).toNat 0
    let (month, start) :=
      if day ≥ stop then (month + 1, stop) else (month, daysBefore.getD month.toNat 0)
    (year, month + 1, day - start + 1)

/-- The function `absClock(abs)`: hour, minute and second within the day. -/
def absClock (abs : Int) : Int × Int × Int :=
  let sec := abs % secondsPerDay
  let hour := sec / secondsPerHour
  let sec := sec - hour * secondsPerHour
  let min := sec / secondsPerMinute
  let sec := sec - min * secondsPerMinute
  (hour, min, sec)

/-- The function `appendInt(b, x, width)` without the buffer: the decimal
digits of `x`, padded with zeros on the left to `width` digits, after a minus
sign when `x` is negative. -/
def appendInt (x : Int) (width : Nat) : String :=
  let u := x.natAbs
  let digits := Nat.toDigits 10 u
  let padded := List.replicate (width - digits.length) '0' ++ digits
  String.mk (if x < 0 then '-' :: padded else padded)

/-- The method `t.Format(time.RFC3339)`: the chunks of the layout
`"2006-01-02T15:04:05Z07:00"` are the year on four digits, month, day, hour,
minute and second on two, and the zone as `Z` or as a signed `hh:mm`; date and
clock are those of the instant shifted by the offset of the location. -/
def Format (t : Time) : String :=
  let offset := (t.loc.lookup t.unix).offset
  let abs := t.unix + offset + (unixToInternal + internalToAbsolute)
  let (year, month, day) := absDate abs
  let (hour, min, sec) := absClock abs
  let zoneText :=
    if offset = 0 then "Z"
    else
      let zone := Int.tdiv offset 60
      let sign := if zone < 0 then "-" else "+"
      let zone := if zone < 0 then -zone else zone
      sign ++ appendInt (zone / 60) 2 ++ ":" ++ appendInt (zone % 60) 2
  appendInt year 4 ++ "-" ++ appendInt month 2 ++ "-" ++ appendInt day 2 ++ "T" ++
    appendInt hour 2 ++ ":" ++ appendInt min 2 ++ ":" ++ appendInt sec 2 ++ zoneText

/-- The method `t.abs()`: the seconds of the instant since the absolute epoch,
shifted by the offset the location has at that instant. -/
def Time.abs (t : Time) : Int :=
  t.unix + (t.loc.lookup t.unix).offset + (unixToInternal + internalToAbsolute)

/-- The method `t.Date()`: year, month and day of the instant in its location. -/
def Time.Date (t : Time) : Int × Int × Int :=
  absDate t.abs

/-- The method `t.Clock()`: hour, minute and second of the instant in its
location. -/
def Time.Clock (t : Time) : Int × Int × Int :=
  absClock t.abs

/-- The function `absDate(abs, false)`: the year of the instant and the day
within that year, counted from zero. -/
def absYearDay (abs : Int) : Int × Int :=
  let d := abs / secondsPerDay
  let n := d / daysPer400Years
  let y := 400 * n
  let d := d - daysPer400Years * n
  let n := d / daysPer100Years
  let n := n - n / 4
  let y := y + 100 * n
  let d := d - daysPer100Years * n
  let n := d / daysPer4Years
  let y := y + 4 * n
  let d := d - daysPer4Years * n
  let n := d / 365
  let n := n - n / 4
  let y := y + n
  let d := d - 365 * n
  (y + absoluteZeroYear, d)

/-- The second half of `absDate`: month and day of the month from the year and
the day within the year. -/
def yearDayDate (year day : Int) : Int × Int × Int :=
  if isLeap year = true ∧ day = 31 + 29 - 1 then (year, 2, 29)
  else
    let day := if isLeap year = true ∧ day > 31 + 29 - 1 then day - 1 else day
    let month := day / 31
    let stop := daysBefore.getD (month + 1).toNat 0
    let (month, start) :=
      if day ≥ stop then (month + 1, stop) else (month, daysBefore.getD month.toNat 0)
    (year, month + 1, day - start + 1)

/-- The second half of `absDate` as a function of the leap-year test alone. -/
def ydayMonthDay (leap : Bool) (day : Int) : Int × Int :=
  if leap = true ∧ day = 31 + 29 - 1 then (2, 29)
  else
    let day := if leap = true ∧ day > 31 + 29 - 1 then day - 1 else day
    let month := day / 31
    let stop := daysBefore.getD (month + 1).toNat 0
    let (month, start) :=
      if day ≥ stop then (month + 1, stop) else (month, daysBefore.getD month.toNat 0)
    (month + 1, day - start + 1)

/-- The zones the process can load: the variable `time.Local`, and what
loading the zone file of a name gives, if there is such a file. -/
structure ZoneSources where
  Local : Location
  load : String → Option Location

/-- The location `time.UTC`: offset zero at every instant. -/
def UTC : Location where
  name := "UTC"
  lookup := fun _ => { offset := 0, start := -(2 ^ 63), stop := 2 ^ 63 - 1 }

/-- The instant at which UTC shows the reading `f`: the fields of a parsed text
passed to `Date` with the location `time.UTC`. -/
def readingUTC (f : Fields) : Int :=
  (Date f.year f.month f.day f.hour f.min 0 UTC).unix

/-- The function `containsDotDot`. -/
def containsDotDot : List Char → Bool
  | c0 :: c1 :: s => (c0 = '.' ∧ c1 = '.') || containsDotDot (c1 :: s)
  | _ => false

/-- The function `LoadLocation(name)`: the names `""` and `"UTC"` give
`time.UTC`, `"Local"` gives `time.Local`, a name with `..` or a leading slash
or backslash is refused, and any other name is loaded from the zone files. -/
def LoadLocation (zones : ZoneSources) (name : String) : Except Error Location :=
  if name = "" ∨ name = "UTC" then .ok UTC
  else if name = "Local" then .ok zones.Local
  else if containsDotDot name.data = true ∨ name.data.head? = some '/' ∨
      name.data.head? = some '\\' then
    .error (.unknownTimeZone name)
  else
    match zones.load name with
    | none => .error (.unknownTimeZone name)
    | some loc => .ok loc

/-! ### The shape of the values that fit the layout -/

/-- The number written by a run of decimal digits. -/
def numeralValue (ds : List Char) : Nat :=
  ds.foldl (fun x c => x * 10 + digitVal c) 0

/-- A run of decimal digits that writes the number `n`. -/
def IsNumeral (ds : List Char) (n : Nat) : Prop :=
  (∀ c ∈ ds, isDigitChar c = true) ∧ numeralValue ds = n

/-- A run of one or more spaces. -/
def IsSpaces (s : List Char) : Prop :=
  s ≠ [] ∧ ∀ c ∈ s, c = ' '

/-- The values that fit the layout `"Jan _2 15:04 2006"` with the fields `f`:
a month abbreviation of three letters (case ignored), spaces, a day of one or
two digits, spaces, an hour of one or two digits, a colon, a minute of two
digits, spaces, a year of four digits, and nothing else; the hour is below 24,
the minute below 60 and the day is a day of that month. -/
def FitsLayout (value : List Char) (f : Fields) : Prop :=
  ∃ mon s1 d s2 h mi s3 y : List Char,
    value = mon ++ (s1 ++ (d ++ (s2 ++ (h ++ (':' :: (mi ++ (s3 ++ y))))))) ∧
    (mon.length = 3 ∧ 1 ≤ f.month ∧ f.month ≤ 12 ∧
      ∃ name, shortMonthNames[f.month - 1]? = some name ∧ «match» mon name = true) ∧
    IsSpaces s1 ∧ ((d.length = 1 ∨ d.length = 2) ∧ IsNumeral d f.day) ∧
    IsSpaces s2 ∧ ((h.length = 1 ∨ h.length = 2) ∧ IsNumeral h f.hour) ∧
    (mi.length = 2 ∧ IsNumeral mi f.min) ∧
    IsSpaces s3 ∧ (y.length = 4 ∧ IsNumeral y f.year.toNat ∧ 0 ≤ f.year) ∧
    f.hour < 24 ∧ f.min < 60 ∧ 1 ≤ f.day ∧ (f.day : Int) ≤ daysIn f.month f.year

end GoTime

/-- The runtime made of the model of the `time` package over the zones of a
host, and of a calendar client. -/
def goRuntime (zones : GoTime.ZoneSources)
    (client : Event → Except GoTime.Error String) : Runtime where
  Location := GoTime.Location
  Time := GoTime.Time
  Err := GoTime.Error
  loadLocation := GoTime.LoadLocation zones
  parseInLocation := fun layout value loc =>
    match GoTime.ParseInLocation layout value loc with
    | .error err => .error (.parse err)
    | .ok t => .ok t
  formatRFC3339 := GoTime.Format
  insert := client

/-! ## Time-zone data for the examples

The entries of the time-zone database for the four zones of `locationToZone`,
as they stand for the instants of the year 2024: Hong Kong and Tokyo keep one
offset all year, the two Canadian zones switch to daylight time on 10 March
and back on 3 November. -/

/-- A zone with one offset at every instant. -/
def fixedZone (name : String) (offset : Int) : GoTime.Location where
  name := name
  lookup := fun _ => { offset := offset, start := -(2 ^ 63), stop := 2 ^ 63 - 1 }

/-- A zone with standard time `std`, and daylight time `dst` between the
instants `dstStart` and `dstEnd`; `before` and `after` are the neighbouring
transitions. -/
def dstZone (name : String) (std dst before dstStart dstEnd after : Int) :
    GoTime.Location where
  name := name
  lookup := fun sec =>
    if sec < dstStart then { offset := std, start := before, stop := dstStart }
    else if sec < dstEnd then { offset := dst, start := dstStart, stop := dstEnd }
    else { offset := std, start := dstEnd, stop := after }

/-- The zone files of the program's four zones in 2024. -/
def zoneFiles2024 (name : String) : Option GoTime.Location :=
  if name = "Asia/Hong_Kong" then some (fixedZone name (8 * 3600))
  else if name = "Asia/Tokyo" then some (fixedZone name (9 * 3600))
  else if name = "Canada/Pacific" then
    some (dstZone name (-8 * 3600) (-7 * 3600) 1699174800 1710064800 1730624400 1741514400)
  else if name = "Canada/Eastern" then
    some (dstZone name (-5 * 3600) (-4 * 3600) 1699164000 1710054000 1730613600 1741503600)
  else none

/-- A host with these zone files whose local zone is UTC. -/
def tzdata2024 : GoTime.ZoneSources where
  Local := GoTime.UTC
  load := zoneFiles2024

/-- A calendar client that accepts every event and answers with a link made of
the summary. -/
def acceptingClient (event : Event) : Except GoTime.Error String :=
  .ok ("https://calendar.example/" ++ event.Summary)

/-- A calendar client that rejects every event. -/
def rejectingClient (_ : Event) : Except GoTime.Error String :=
  .error (.remote "rejected")


/-! ## Records of the examples -/

/-- Flight A of the examples: Hong Kong to Tokyo. -/
def flightA : Flight :=
  { FlightNumber := "CX101", StartDateTime := "Jan  2 09:00 2024", StartLoc := "Hong Kong",
    EndDateTime := "Jan  2 13:00 2024", EndLoc := "Tokyo(Haneda)" }

/-- Flight B of the examples: its start location is not in the table. -/
def flightB : Flight :=
  { FlightNumber := "XX1", StartDateTime := "Jan  3 09:00 2024", StartLoc := "Atlantis",
    EndDateTime := "Jan  3 13:00 2024", EndLoc := "Vancouver" }

/-- Flight C of the examples: Vancouver to Montreal. -/
def flightC : Flight :=
  { FlightNumber := "AC300", StartDateTime := "Jun 10 09:00 2024", StartLoc := "Vancouver",
    EndDateTime := "Jun 10 17:05 2024", EndLoc := "Montreal" }

/-- The event of flight A. -/
def eventA : Event :=
  { Summary := "[Auto] CX101", Description := "Hong Kong > Tokyo(Haneda)",
    Start := "2024-01-02T09:00:00+08:00", End := "2024-01-02T13:00:00+09:00" }

/-! ## Vocabulary of the claims about the submitter -/

/-- A record goes through: its event is built and the create call succeeds. -/
def submits (rt : Runtime) (flight : Flight) : Bool :=
  match buildEvent rt flight with
  | .ok event =>
    match rt.insert event with
    | .ok _ => true
    | .error _ => false
  | _ => false

/-- The create call attempted for a record: the one for its event, when the
event could be built at all. -/
def attempt (rt : Runtime) (flight : Flight) : List Event :=
  match buildEvent rt flight with
  | .ok event => [event]
  | _ => []

/-! ## Properties of the parser -/

/-- The record read at index `j`, with out-of-range reads replaced by the empty
string (never used out of range in the statements below). -/
def recordAt (lines : List String) (j : Nat) : Flight :=
  { FlightNumber := lines.getD j ""
    StartDateTime := lines.getD (j + 1) ""
    StartLoc := lines.getD (j + 2) ""
    EndDateTime := lines.getD (j + 3) ""
    EndLoc := lines.getD (j + 4) "" }

theorem splitNewline_length (cs : List Char) :
    (splitNewline cs).length = cs.count '\n' + 1 := by
  induction cs with
  | nil => simp [splitNewline]
  | cons c cs ih =>
    unfold splitNewline
    by_cases hc : c = '\n'
    · subst hc
      simp [ih]
    · have hne : (c == '\n') = false := by simpa using hc
      rw [if_neg hc, List.count_cons, hne]
      cases hs : splitNewline cs with
      | nil => rw [hs] at ih; simp at ih
      | cons l ls => rw [hs] at ih; simpa using ih

theorem Split_length (s : String) : (Split s).length = newlineCount s + 1 := by
  simp [Split, newlineCount, splitNewline_length]

theorem parseLoop_eq (lines : List String) :
    ∀ (fuel i : Nat) (flights : List Flight),
      (lines.length - i) / 6 < fuel →
      parseLoop lines fuel i flights =
        .ok (flights ++ (List.range ((lines.length - i) / 6)).map
          (fun k => recordAt lines (i + 6 * k))) := by
  intro fuel
  induction fuel with
  | zero => intro i flights h; omega
  | succ fuel ih =>
    intro i flights h
    unfold parseLoop
    by_cases h1 : i < lines.length
    · rw [if_pos h1]
      simp only [chunkSize]
      by_cases h2 : i + 6 > lines.length
      · rw [if_pos h2]
        have h0 : (lines.length - i) / 6 = 0 := by omega
        simp [h0]
      · rw [if_neg h2]
        have b0 : i < lines.length := h1
        have b1 : i + 1 < lines.length := by omega
        have b2 : i + 2 < lines.length := by omega
        have b3 : i + 3 < lines.length := by omega
        have b4 : i + 4 < lines.length := by omega
        rw [List.getElem?_eq_getElem b0, List.getElem?_eq_getElem b1,
          List.getElem?_eq_getElem b2, List.getElem?_eq_getElem b3,
          List.getElem?_eq_getElem b4]
        simp only []
        have hq : (lines.length - i) / 6 = (lines.length - (i + 6)) / 6 + 1 := by omega
        rw [ih (i + 6) _ (by omega), hq, List.range_succ_eq_map]
        have hhead : Flight.mk lines[i] lines[i + 1] lines[i + 2] lines[i + 3] lines[i + 4] =
            recordAt lines (i + 6 * 0) := by
          simp [recordAt, List.getD_eq_getElem?_getD, List.getElem?_eq_getElem, b0, b1, b2,
            b3, b4]
        have htail : (List.range ((lines.length - (i + 6)) / 6)).map
              (fun k => recordAt lines (i + 6 + 6 * k)) =
            (List.range ((lines.length - (i + 6)) / 6)).map
              ((fun k => recordAt lines (i + 6 * k)) ∘ Nat.succ) := by
          apply List.map_congr_left
          intro k _
          have hk : i + 6 + 6 * k = i + 6 * (k + 1) := by omega
          simp only [Function.comp, Nat.succ_eq_add_one, hk]
        rw [hhead, htail]
        simp only [List.map_cons, List.map_map, List.append_assoc, List.singleton_append]
    · rw [if_neg h1]
      have h0 : (lines.length - i) / 6 = 0 := by
        have : lines.length - i = 0 := by omega
        simp [this]
      simp [h0]

theorem parseLines_eq (lines : List String) :
    parseLines lines =
      .ok ((List.range (lines.length / 6)).map (fun k => recordAt lines (6 * k))) := by
  unfold parseLines
  rw [parseLoop_eq lines _ 0 [] (by
    have := Nat.div_le_self lines.length 6
    simp only [Nat.sub_zero]
    omega)]
  simp

theorem parseLoop_ne_panic (lines : List String) :
    ∀ (fuel i : Nat) (flights : List Flight) (msg : String),
      parseLoop lines fuel i flights ≠ .panic msg := by
  intro fuel
  induction fuel with
  | zero => intro i flights msg; simp [parseLoop]
  | succ fuel ih =>
    intro i flights msg
    unfold parseLoop
    by_cases h1 : i < lines.length
    · rw [if_pos h1]
      simp only [chunkSize]
      by_cases h2 : i + 6 > lines.length
      · rw [if_pos h2]; simp
      · rw [if_neg h2]
        have b1 : i + 1 < lines.length := by omega
        have b2 : i + 2 < lines.length := by omega
        have b3 : i + 3 < lines.length := by omega
        have b4 : i + 4 < lines.length := by omega
        rw [List.getElem?_eq_getElem h1, List.getElem?_eq_getElem b1,
          List.getElem?_eq_getElem b2, List.getElem?_eq_getElem b3,
          List.getElem?_eq_getElem b4]
        exact ih _ _ _
    · rw [if_neg h1]; simp

theorem recordAt_set (lines : List String) (k j : Nat) (other : String) :
    recordAt (lines.set (6 * k + 5) other) (6 * j) = recordAt lines (6 * j) := by
  have e0 : 6 * k + 5 ≠ 6 * j := by omega
  have e1 : 6 * k + 5 ≠ 6 * j + 1 := by omega
  have e2 : 6 * k + 5 ≠ 6 * j + 2 := by omega
  have e3 : 6 * k + 5 ≠ 6 * j + 3 := by omega
  have e4 : 6 * k + 5 ≠ 6 * j + 4 := by omega
  simp only [recordAt, List.getD_eq_getElem?_getD, List.getElem?_set_ne e0,
    List.getElem?_set_ne e1, List.getElem?_set_ne e2, List.getElem?_set_ne e3,
    List.getElem?_set_ne e4]

/-! ## The claims about the parser and the location table -/

/-- C1 (chunking count): splitting the input at newlines gives `n` lines, where
`n` is the number of newlines plus one, and the parser loop of `main` returns
exactly `n / 6` flight records; so 6 lines give 1 record, 5 lines give none,
11 lines give 1 and 12 lines give 2. -/
theorem parse_record_count (data : String) :
    (Split data).length = newlineCount data + 1 ∧
    ∃ flights, parse data = .ok flights ∧
      flights.length = (newlineCount data + 1) / 6 ∧
      (newlineCount data + 1 = 6 → flights.length = 1) ∧
      (newlineCount data + 1 = 5 → flights.length = 0) ∧
      (newlineCount data + 1 = 11 → flights.length = 1) ∧
      (newlineCount data + 1 = 12 → flights.length = 2) := by
  refine ⟨Split_length data, _, parseLines_eq (Split data), ?_⟩
  have hlen := Split_length data
  simp only [List.length_map, List.length_range, hlen]
  refine ⟨trivial, ?_, ?_, ?_, ?_⟩ <;> intro h <;> rw [h]

/-- Instance of C1 at an eleven-line input: one record, the trailing five lines
are dropped. -/
theorem parse_record_count_witness :
    parse "CX1\nd1\nA\nd2\nB\n\nCX2\nd3\nB\nd4\nA" =
      .ok [{ FlightNumber := "CX1", StartDateTime := "d1", StartLoc := "A",
             EndDateTime := "d2", EndLoc := "B" }] ∧
    newlineCount "CX1\nd1\nA\nd2\nB\n\nCX2\nd3\nB\nd4\nA" + 1 = 11 ∧
    (∀ flights, parse "CX1\nd1\nA\nd2\nB\n\nCX2\nd3\nB\nd4\nA" = .ok flights →
      flights.length = 1) := by
  refine ⟨by decide, by decide, ?_⟩
  intro flights h
  obtain ⟨_, fs, hfs, _, _, _, h11, _⟩ :=
    parse_record_count "CX1\nd1\nA\nd2\nB\n\nCX2\nd3\nB\nd4\nA"
  rw [hfs] at h
  cases h
  exact h11 (by decide)

/-- C2 (record content): for every slice of lines and every `k` below
`len(lines) / 6`, record `k` of the parser loop holds the lines `6k`, `6k+1`,
`6k+2`, `6k+3`, `6k+4` as `FlightNumber`, `StartDateTime`, `StartLoc`,
`EndDateTime`, `EndLoc`, whatever their contents; line `6k+5` is skipped:
replacing it by any other line gives the same records. -/
theorem parseLines_record (lines : List String) (k : Nat) (hk : k < lines.length / 6) :
    ∃ flights, parseLines lines = .ok flights ∧
      ∃ flight, flights[k]? = some flight ∧
        lines[6 * k]? = some flight.FlightNumber ∧
        lines[6 * k + 1]? = some flight.StartDateTime ∧
        lines[6 * k + 2]? = some flight.StartLoc ∧
        lines[6 * k + 3]? = some flight.EndDateTime ∧
        lines[6 * k + 4]? = some flight.EndLoc ∧
        ∀ other, parseLines (lines.set (6 * k + 5) other) = .ok flights := by
  refine ⟨_, parseLines_eq lines, recordAt lines (6 * k), ?_, ?_, ?_, ?_, ?_, ?_, ?_⟩
  · simp [List.getElem?_map, List.getElem?_range hk]
  · have b : 6 * k < lines.length := by omega
    simp [recordAt, List.getD_eq_getElem?_getD, List.getElem?_eq_getElem b]
  · have b : 6 * k + 1 < lines.length := by omega
    simp [recordAt, List.getD_eq_getElem?_getD, List.getElem?_eq_getElem b]
  · have b : 6 * k + 2 < lines.length := by omega
    simp [recordAt, List.getD_eq_getElem?_getD, List.getElem?_eq_getElem b]
  · have b : 6 * k + 3 < lines.length := by omega
    simp [recordAt, List.getD_eq_getElem?_getD, List.getElem?_eq_getElem b]
  · have b : 6 * k + 4 < lines.length := by omega
    simp [recordAt, List.getD_eq_getElem?_getD, List.getElem?_eq_getElem b]
  · intro other
    rw [parseLines_eq, List.length_set]
    congr 1
    apply List.map_congr_left
    intro j _
    exact recordAt_set lines k j other

/-- Instance of C2: a block of five empty lines and a separator is accepted,
and the separator can be anything. -/
theorem parseLines_record_witness :
    (0 < ["", "", "", "", "", "sep"].length / 6) ∧
    ∃ flights, parseLines ["", "", "", "", "", "sep"] = .ok flights ∧
      ∃ flight, flights[0]? = some flight ∧
        ["", "", "", "", "", "sep"][6 * 0]? = some flight.FlightNumber ∧
        ["", "", "", "", "", "sep"][6 * 0 + 1]? = some flight.StartDateTime ∧
        ["", "", "", "", "", "sep"][6 * 0 + 2]? = some flight.StartLoc ∧
        ["", "", "", "", "", "sep"][6 * 0 + 3]? = some flight.EndDateTime ∧
        ["", "", "", "", "", "sep"][6 * 0 + 4]? = some flight.EndLoc ∧
        ∀ other, parseLines (["", "", "", "", "", "sep"].set (6 * 0 + 5) other) =
          .ok flights :=
  ⟨by decide, parseLines_record ["", "", "", "", "", "sep"] 0 (by decide)⟩

/-- C3 (parsing never fails): for every input the split-and-chunk loop of
`main` ends within its iteration budget and returns a slice of records; more
iterations change nothing, and from no loop state is the index-out-of-range
panic reached. -/
theorem parse_never_fails (data : String) :
    (∃ flights, parse data = .ok flights ∧
      ∀ extra, parseLoop (Split data) ((Split data).length + 1 + extra) 0 [] = .ok flights) ∧
    (∀ fuel i flights msg, parseLoop (Split data) fuel i flights ≠ .panic msg) := by
  refine ⟨⟨_, parseLines_eq (Split data), ?_⟩, parseLoop_ne_panic (Split data)⟩
  intro extra
  rw [parseLoop_eq (Split data) _ 0 [] (by
    have := Nat.div_le_self (Split data).length 6
    simp only [Nat.sub_zero]
    omega)]
  simp

/-- C4 (unknown locations): `locationToZone` panics with "unrecognized
location" exactly when its argument is none of the five known names, and
returns a zone identifier exactly when it is one of them; the match is
case-sensitive. -/
theorem locationToZone_panics_iff (loc : String) :
    (locationToZone loc = .panic "unrecognized location" ↔ loc ∉ knownLocations) ∧
    ((∃ zone, locationToZone loc = .ok zone) ↔ loc ∈ knownLocations) ∧
    locationToZone "hong kong" = .panic "unrecognized location" := by
  refine ⟨?_, ?_, by decide⟩
  · unfold locationToZone knownLocations
    split_ifs <;> simp_all
  · unfold locationToZone knownLocations
    split_ifs <;> simp_all

/-- C5 (known locations): the zone identifier returned for each of the five
known location names. -/
theorem locationToZone_known :
    locationToZone "Hong Kong" = .ok "Asia/Hong_Kong" ∧
    locationToZone "Tokyo(Haneda)" = .ok "Asia/Tokyo" ∧
    locationToZone "Tokyo(Narita)" = .ok "Asia/Tokyo" ∧
    locationToZone "Vancouver" = .ok "Canada/Pacific" ∧
    locationToZone "Montreal" = .ok "Canada/Eastern" := by
  decide

/-! ## Properties of the submitter -/

theorem locationToZone_cases (loc : String) :
    (∃ zone, locationToZone loc = .ok zone) ∨
      locationToZone loc = .panic "unrecognized location" := by
  unfold locationToZone
  split_ifs <;> simp

theorem locationToZone_unknown (loc : String) (h : loc ∉ knownLocations) :
    locationToZone loc = .panic "unrecognized location" := by
  unfold locationToZone
  simp only [knownLocations, List.mem_cons, List.mem_singleton, not_or, List.mem_nil_iff,
    or_false] at h
  obtain ⟨h1, h2, h3, h4, h5⟩ := h
  simp [h1, h2, h3, h4, h5]

theorem buildEvent_cases (rt : Runtime) (flight : Flight) :
    (∃ event, buildEvent rt flight = .ok event) ∨
      buildEvent rt flight = .panic "unrecognized location" ∨
      buildEvent rt flight = .fatal "Unable to format date time: %v" := by
  unfold buildEvent
  rcases locationToZone_cases flight.StartLoc with ⟨zs, hs⟩ | hs
  · rw [hs]
    simp only []
    cases formattedDateTime rt flight.StartDateTime zs with
    | error err => simp
    | ok t =>
      simp only []
      rcases locationToZone_cases flight.EndLoc with ⟨ze, he⟩ | he
      · rw [he]
        simp only []
        cases formattedDateTime rt flight.EndDateTime ze with
        | error err => simp
        | ok t2 => simp
      · rw [he]; simp
  · rw [hs]; simp

theorem submitLoop_append (rt : Runtime) (before : List Flight) :
    (∀ f ∈ before, submits rt f = true) →
    ∃ events lines, List.Forall₂ (fun f ev => buildEvent rt f = .ok ev) before events ∧
      ∀ rest trace, submitLoop rt (before ++ rest) trace =
        submitLoop rt rest
          { calls := trace.calls ++ events, stdout := trace.stdout ++ lines } := by
  induction before with
  | nil =>
    intro _
    exact ⟨[], [], List.Forall₂.nil, by intro rest trace; simp⟩
  | cons f before ih =>
    intro h
    obtain ⟨events, lines, hall, hrun⟩ := ih (fun g hg => h g (List.mem_cons_of_mem _ hg))
    have hf := h f (List.mem_cons_self _ _)
    unfold submits at hf
    cases hb : buildEvent rt f with
    | ok event =>
      rw [hb] at hf
      simp only [] at hf
      cases hi : rt.insert event with
      | error err => rw [hi] at hf; simp at hf
      | ok link =>
        refine ⟨event :: events, ("Event created: " ++ link ++ "\n") :: lines,
          List.Forall₂.cons hb hall, ?_⟩
        intro rest trace
        rw [List.cons_append, submitLoop, hb]
        simp only []
        rw [hi]
        simp only []
        rw [hrun]
        simp
    | panic msg => rw [hb] at hf; simp at hf
    | fatal msg => rw [hb] at hf; simp at hf
    | timeout => rw [hb] at hf; simp at hf

theorem submitLoop_calls_extend (rt : Runtime) :
    ∀ (flights : List Flight) (trace : Trace),
      trace.calls <+: (submitLoop rt flights trace).1.calls := by
  intro flights
  induction flights with
  | nil => intro trace; simp [submitLoop]
  | cons f rest ih =>
    intro trace
    unfold submitLoop
    cases buildEvent rt f with
    | ok event =>
      simp only []
      cases rt.insert event with
      | error err => simp
      | ok link =>
        simp only []
        exact (List.prefix_append trace.calls [event]).trans
          (ih { calls := trace.calls ++ [event],
                stdout := trace.stdout ++ ["Event created: " ++ link ++ "\n"] })
    | panic msg => simp
    | fatal msg => simp
    | timeout => simp

/-! ## The claims about the submitter -/

/-- C6 (submission ordering, abort on the first error): when every record of
`before` goes through, the loop issues exactly one create call per record of
`before`, in input order, and ends normally; and when `before` is followed by
a record `bad` that does not go through, the calls issued are those for
`before`, plus the failed attempt for `bad` when its error is the remote one,
and nothing for any later record: the run ends with the unknown-location
panic, the date error or the insert error of `bad`. -/
theorem writeToGoogle_calls (rt : Runtime) (before : List Flight)
    (h : ∀ f ∈ before, submits rt f = true) :
    ∃ events, List.Forall₂ (fun f ev => buildEvent rt f = .ok ev) before events ∧
      (writeToGoogle rt before).1.calls = events ∧
      (writeToGoogle rt before).2 = .ok () ∧
      ∀ bad after, submits rt bad = false →
        (writeToGoogle rt (before ++ bad :: after)).1.calls = events ++ attempt rt bad ∧
        ((attempt rt bad = [] ∧
            ((writeToGoogle rt (before ++ bad :: after)).2 =
                .panic "unrecognized location" ∨
              (writeToGoogle rt (before ++ bad :: after)).2 =
                .fatal "Unable to format date time: %v")) ∨
          (∃ event err, buildEvent rt bad = .ok event ∧ rt.insert event = .error err ∧
            attempt rt bad = [event] ∧
            (writeToGoogle rt (before ++ bad :: after)).2 =
              .fatal "Unable to insert: %v")) := by
  obtain ⟨events, lines, hall, hrun⟩ := submitLoop_append rt before h
  refine ⟨events, hall, ?_, ?_, ?_⟩
  · have := hrun [] { calls := [], stdout := [] }
    rw [List.append_nil] at this
    simp [writeToGoogle, this, submitLoop]
  · have := hrun [] { calls := [], stdout := [] }
    rw [List.append_nil] at this
    simp [writeToGoogle, this, submitLoop]
  · intro bad after hbad
    unfold writeToGoogle
    rw [hrun]
    unfold submits at hbad
    unfold attempt
    rcases buildEvent_cases rt bad with ⟨event, hb⟩ | hb | hb
    · rw [hb] at hbad
      simp only [] at hbad
      cases hi : rt.insert event with
      | ok link => rw [hi] at hbad; simp at hbad
      | error err =>
        refine ⟨?_, Or.inr ⟨event, err, hb, hi, ?_, ?_⟩⟩
        · simp [submitLoop, hb, hi]
        · simp [hb]
        · simp [submitLoop, hb, hi]
    · refine ⟨?_, Or.inl ⟨?_, Or.inl ?_⟩⟩ <;> simp [submitLoop, hb]
    · refine ⟨?_, Or.inl ⟨?_, Or.inr ?_⟩⟩ <;> simp [submitLoop, hb]

/-- Instance of C6 at `[A, B, C]` with B failing: one call, for A; the run ends
with the panic of B and nothing is issued for C.  With a client that rejects
every event, the run of `[A, C]` issues the failed attempt for A and stops. -/
theorem writeToGoogle_calls_witness :
    (∀ f ∈ [flightA], submits (goRuntime tzdata2024 acceptingClient) f = true) ∧
    submits (goRuntime tzdata2024 acceptingClient) flightB = false ∧
    (writeToGoogle (goRuntime tzdata2024 acceptingClient)
      ([flightA] ++ flightB :: [flightC])).1.calls = [eventA] ∧
    (writeToGoogle (goRuntime tzdata2024 acceptingClient)
      ([flightA] ++ flightB :: [flightC])).2 = .panic "unrecognized location" ∧
    (writeToGoogle (goRuntime tzdata2024 rejectingClient) [flightA, flightC]).1.calls =
      [eventA] ∧
    (writeToGoogle (goRuntime tzdata2024 rejectingClient) [flightA, flightC]).2 =
      .fatal "Unable to insert: %v" := by
  have hA : ∀ f ∈ [flightA], submits (goRuntime tzdata2024 acceptingClient) f = true := by
    decide
  have hB : submits (goRuntime tzdata2024 acceptingClient) flightB = false := by decide
  obtain ⟨events, hall, hcalls, _, hbad⟩ :=
    writeToGoogle_calls (goRuntime tzdata2024 acceptingClient) [flightA] hA
  have hev : events = [eventA] := by
    rw [← hcalls]
    decide
  obtain ⟨hc, _⟩ := hbad flightB [flightC] hB
  refine ⟨hA, hB, ?_, by decide, by decide, by decide⟩
  rw [hc, hev]
  decide

/-- C7 (event construction): for a record whose two locations are known and
whose two date-times parse, the event built has `Summary = "[Auto] " +
FlightNumber`, `Description = StartLoc + " > " + EndLoc`, `Start` the RFC 3339
text of `StartDateTime` parsed in the zone of `StartLoc`, and `End` the RFC
3339 text of `EndDateTime` parsed in the zone of `EndLoc`; this event is the
one passed to the create call, right after the calls already issued.  On the
block of flight CX101 the run issues one call, with the title, description,
start `2024-01-02T09:00:00+08:00` and end `2024-01-02T13:00:00+09:00`. -/
theorem buildEvent_fields (rt : Runtime) (flight : Flight) (startZone endZone : String)
    (s e : rt.Time)
    (hsl : locationToZone flight.StartLoc = .ok startZone)
    (hsd : formattedDateTime rt flight.StartDateTime startZone = .ok s)
    (hel : locationToZone flight.EndLoc = .ok endZone)
    (hed : formattedDateTime rt flight.EndDateTime endZone = .ok e) :
    buildEvent rt flight =
      .ok { Summary := "[Auto] " ++ flight.FlightNumber
            Description := flight.StartLoc ++ " > " ++ flight.EndLoc
            Start := rt.formatRFC3339 s
            End := rt.formatRFC3339 e } ∧
    (∀ rest trace,
      trace.calls ++ [{ Summary := "[Auto] " ++ flight.FlightNumber
                        Description := flight.StartLoc ++ " > " ++ flight.EndLoc
                        Start := rt.formatRFC3339 s
                        End := rt.formatRFC3339 e }] <+:
        (submitLoop rt (flight :: rest) trace).1.calls) ∧
    parse "CX101\nJan  2 09:00 2024\nHong Kong\nJan  2 13:00 2024\nTokyo(Haneda)\n" =
      .ok [{ FlightNumber := "CX101", StartDateTime := "Jan  2 09:00 2024",
             StartLoc := "Hong Kong", EndDateTime := "Jan  2 13:00 2024",
             EndLoc := "Tokyo(Haneda)" }] ∧
    (writeToGoogle (goRuntime tzdata2024 acceptingClient)
        [{ FlightNumber := "CX101", StartDateTime := "Jan  2 09:00 2024",
           StartLoc := "Hong Kong", EndDateTime := "Jan  2 13:00 2024",
           EndLoc := "Tokyo(Haneda)" }]).1.calls =
      [{ Summary := "[Auto] CX101", Description := "Hong Kong > Tokyo(Haneda)",
         Start := "2024-01-02T09:00:00+08:00", End := "2024-01-02T13:00:00+09:00" }] := by
  have hb : buildEvent rt flight =
      .ok { Summary := "[Auto] " ++ flight.FlightNumber
            Description := flight.StartLoc ++ " > " ++ flight.EndLoc
            Start := rt.formatRFC3339 s
            End := rt.formatRFC3339 e } := by
    unfold buildEvent
    rw [hsl]
    simp only []
    rw [hsd]
    simp only []
    rw [hel]
    simp only []
    rw [hed]
  refine ⟨hb, ?_, by decide, by decide⟩
  intro rest trace
  unfold submitLoop
  rw [hb]
  simp only []
  cases rt.insert _ with
  | error err => simp
  | ok link =>
    simp only []
    exact submitLoop_calls_extend rt rest
      { calls := trace.calls ++ [_], stdout := trace.stdout ++ [_] }

/-- Instance of C7 at flight C, under the 2024 zone data: start in Vancouver
time, end in Montreal time. -/
theorem buildEvent_fields_witness :
    buildEvent (goRuntime tzdata2024 acceptingClient) flightC =
      .ok { Summary := "[Auto] AC300", Description := "Vancouver > Montreal",
            Start := "2024-06-10T09:00:00-07:00", End := "2024-06-10T17:05:00-04:00" } := by
  have hsd : formattedDateTime (goRuntime tzdata2024 acceptingClient) flightC.StartDateTime
      "Canada/Pacific" = .ok (GoTime.Date 2024 6 10 9 0 0
        (dstZone "Canada/Pacific" (-8 * 3600) (-7 * 3600) 1699174800 1710064800 1730624400
          1741514400)) := rfl
  have hed : formattedDateTime (goRuntime tzdata2024 acceptingClient) flightC.EndDateTime
      "Canada/Eastern" = .ok (GoTime.Date 2024 6 10 17 5 0
        (dstZone "Canada/Eastern" (-5 * 3600) (-4 * 3600) 1699164000 1710054000 1730613600
          1741503600)) := rfl
  have h := (buildEvent_fields (goRuntime tzdata2024 acceptingClient) flightC
    "Canada/Pacific" "Canada/Eastern" _ _ (by decide) hsd (by decide) hed).1
  rw [h]
  decide

/-- C8, as stated, fails: a record with a known start location, a start
date-time that does not parse and an unknown end location ends the run with
the date error, not with the unknown-location panic; the end location is never
looked up. -/
theorem buildEvent_unknown_endLoc_counterexample :
    "Atlantis" ∉ knownLocations ∧
    buildEvent (goRuntime tzdata2024 acceptingClient)
        { FlightNumber := "CX101", StartDateTime := "not a date", StartLoc := "Hong Kong",
          EndDateTime := "Jan  2 13:00 2024", EndLoc := "Atlantis" } =
      .fatal "Unable to format date time: %v" ∧
    buildEvent (goRuntime tzdata2024 acceptingClient)
        { FlightNumber := "CX101", StartDateTime := "not a date", StartLoc := "Hong Kong",
          EndDateTime := "Jan  2 13:00 2024", EndLoc := "Atlantis" } ≠
      .panic "unrecognized location" := by
  decide

/-- C8, amended: start and end are handled one after the other, each location
being resolved right before its own date-time is parsed.  A record whose
`EndLoc` is outside the known set never produces a create call, and its
processing fails: with the unknown-location panic when `StartLoc` is unknown
too or when `StartDateTime` parses in the zone of `StartLoc`, and with the date
error when `StartLoc` is known and `StartDateTime` does not parse. -/
theorem buildEvent_unknown_endLoc (rt : Runtime) (flight : Flight)
    (h : flight.EndLoc ∉ knownLocations) :
    (flight.StartLoc ∉ knownLocations →
      buildEvent rt flight = .panic "unrecognized location") ∧
    (∀ zone s, locationToZone flight.StartLoc = .ok zone →
      formattedDateTime rt flight.StartDateTime zone = .ok s →
      buildEvent rt flight = .panic "unrecognized location") ∧
    (∀ zone err, locationToZone flight.StartLoc = .ok zone →
      formattedDateTime rt flight.StartDateTime zone = .error err →
      buildEvent rt flight = .fatal "Unable to format date time: %v") ∧
    (buildEvent rt flight = .panic "unrecognized location" ∨
      buildEvent rt flight = .fatal "Unable to format date time: %v") ∧
    (∀ rest trace, (submitLoop rt (flight :: rest) trace).1 = trace ∧
      ((submitLoop rt (flight :: rest) trace).2 = .panic "unrecognized location" ∨
        (submitLoop rt (flight :: rest) trace).2 =
          .fatal "Unable to format date time: %v")) := by
  have he := locationToZone_unknown flight.EndLoc h
  have h1 : flight.StartLoc ∉ knownLocations →
      buildEvent rt flight = .panic "unrecognized location" := by
    intro hs
    unfold buildEvent
    rw [locationToZone_unknown flight.StartLoc hs]
  have h2 : ∀ zone s, locationToZone flight.StartLoc = .ok zone →
      formattedDateTime rt flight.StartDateTime zone = .ok s →
      buildEvent rt flight = .panic "unrecognized location" := by
    intro zone s hz hs
    unfold buildEvent
    rw [hz]
    simp only []
    rw [hs]
    simp only []
    rw [he]
  have h3 : ∀ zone err, locationToZone flight.StartLoc = .ok zone →
      formattedDateTime rt flight.StartDateTime zone = .error err →
      buildEvent rt flight = .fatal "Unable to format date time: %v" := by
    intro zone err hz hs
    unfold buildEvent
    rw [hz]
    simp only []
    rw [hs]
  have h4 : buildEvent rt flight = .panic "unrecognized location" ∨
      buildEvent rt flight = .fatal "Unable to format date time: %v" := by
    rcases locationToZone_cases flight.StartLoc with ⟨zone, hz⟩ | hz
    · cases hs : formattedDateTime rt flight.StartDateTime zone with
      | error err => exact Or.inr (h3 zone err hz hs)
      | ok s => exact Or.inl (h2 zone s hz hs)
    · left
      unfold buildEvent
      rw [hz]
  refine ⟨h1, h2, h3, h4, ?_⟩
  intro rest trace
  rcases h4 with hb | hb <;> simp [submitLoop, hb]

/-- Instance of the amended C8: unknown end location after a start that
parses, the run of `[record, A]` issues no call and ends with the panic. -/
theorem buildEvent_unknown_endLoc_witness :
    "Atlantis" ∉ knownLocations ∧
    buildEvent (goRuntime tzdata2024 acceptingClient)
        { FlightNumber := "CX101", StartDateTime := "Jan  2 09:00 2024",
          StartLoc := "Hong Kong", EndDateTime := "Jan  2 13:00 2024",
          EndLoc := "Atlantis" } = .panic "unrecognized location" ∧
    (writeToGoogle (goRuntime tzdata2024 acceptingClient)
        [{ FlightNumber := "CX101", StartDateTime := "Jan  2 09:00 2024",
           StartLoc := "Hong Kong", EndDateTime := "Jan  2 13:00 2024",
           EndLoc := "Atlantis" }, flightA]).1.calls = [] := by
  have h := buildEvent_unknown_endLoc (goRuntime tzdata2024 acceptingClient)
    { FlightNumber := "CX101", StartDateTime := "Jan  2 09:00 2024",
      StartLoc := "Hong Kong", EndDateTime := "Jan  2 13:00 2024",
      EndLoc := "Atlantis" } (by decide)
  refine ⟨by decide, ?_, ?_⟩
  · exact h.2.1 "Asia/Hong_Kong" _ (by decide) rfl
  · have := (h.2.2.2.2 [flightA] { calls := [], stdout := [] }).1
    unfold writeToGoogle
    rw [this]

/-! ## Properties of the model of the `time` package -/

namespace GoTime

/-- Names that go to the zone files. -/
theorem LoadLocation_zone_file (zones : ZoneSources) (name : String)
    (h : (decide (name = "" ∨ name = "UTC") || decide (name = "Local") ||
      (containsDotDot name.data || decide (name.data.head? = some '/') ||
        decide (name.data.head? = some '\\'))) = false) :
    LoadLocation zones name =
      match zones.load name with
      | none => .error (.unknownTimeZone name)
      | some loc => .ok loc := by
  simp only [Bool.or_eq_false_iff, decide_eq_false_iff_not, not_or] at h
  obtain ⟨⟨⟨h1, h2⟩, h3⟩, ⟨h4, h5⟩, h6⟩ := h
  unfold LoadLocation
  rw [if_neg (by simp [h1, h2]), if_neg h3, if_neg (by simp [h4, h5, h6])]

theorem parseFields_jun10 :
    parseFields "Jun 10 09:00 2024".data =
      .ok { year := 2024, month := 6, day := 10, hour := 9, min := 0 } := by
  rfl

theorem Date_jun10_unix (loc : Location) :
    (Date 2024 6 10 9 0 0 loc).unix =
      if (loc.lookup 1718010000).offset ≠ 0 then
        1718010000 -
          (if 1718010000 - (loc.lookup 1718010000).offset < (loc.lookup 1718010000).start ∨
              1718010000 - (loc.lookup 1718010000).offset ≥ (loc.lookup 1718010000).stop then
            (loc.lookup (1718010000 - (loc.lookup 1718010000).offset)).offset
          else (loc.lookup 1718010000).offset)
      else 1718010000 := by
  rfl

end GoTime

theorem formattedDateTime_go (zones : GoTime.ZoneSources)
    (client : Event → Except GoTime.Error String) (raw zone : String) :
    formattedDateTime (goRuntime zones client) raw zone =
      match GoTime.LoadLocation zones zone with
      | .error err => .error err
      | .ok loc =>
        match GoTime.parseFields raw.data with
        | .error err => .error (.parse err)
        | .ok f => .ok (GoTime.Date f.year f.month f.day f.hour f.min 0 loc) := by
  simp only [formattedDateTime, goRuntime, ansic, GoTime.ParseInLocation, if_true]
  cases GoTime.LoadLocation zones zone with
  | error err => rfl
  | ok loc =>
    simp only []
    cases GoTime.parseFields raw.data with
    | error err => rfl
    | ok f => rfl

theorem formattedDateTime_go_error (zones : GoTime.ZoneSources)
    (client : Event → Except GoTime.Error String) (raw zone : String)
    (perr : GoTime.ParseError) (h : GoTime.parseFields raw.data = .error perr) :
    ∃ err, formattedDateTime (goRuntime zones client) raw zone = .error err := by
  rw [formattedDateTime_go, h]
  cases GoTime.LoadLocation zones zone with
  | error err => exact ⟨_, rfl⟩
  | ok loc => exact ⟨_, rfl⟩

theorem jun10_tokyo_pacific (zones : GoTime.ZoneSources)
    (client : Event → Except GoTime.Error String) (tokyo pacific : GoTime.Location)
    (hT : zones.load "Asia/Tokyo" = some tokyo)
    (hP : zones.load "Canada/Pacific" = some pacific)
    (hTo : ∀ sec, 1717923600 ≤ sec → sec ≤ 1718096400 →
      (tokyo.lookup sec).offset = 9 * 3600)
    (hPo : ∀ sec, 1717923600 ≤ sec → sec ≤ 1718096400 →
      (pacific.lookup sec).offset = -8 * 3600 ∨ (pacific.lookup sec).offset = -7 * 3600) :
    (∃ t p : GoTime.Time,
      formattedDateTime (goRuntime zones client) "Jun 10 09:00 2024" "Asia/Tokyo" = .ok t ∧
      formattedDateTime (goRuntime zones client) "Jun 10 09:00 2024" "Canada/Pacific" =
        .ok p ∧
      t.unix = 1718010000 - 9 * 3600 ∧
      GoTime.Format t = "2024-06-10T09:00:00+09:00" ∧
      t.unix ≠ p.unix ∧
      (p.unix - t.unix = 16 * 3600 ∨ p.unix - t.unix = 17 * 3600)) ∧
    (∃ t p : GoTime.Time,
      formattedDateTime (goRuntime tzdata2024 client) "Jun 10 09:00 2024" "Asia/Tokyo" =
        .ok t ∧
      formattedDateTime (goRuntime tzdata2024 client) "Jun 10 09:00 2024" "Canada/Pacific" =
        .ok p ∧
      GoTime.Format t = "2024-06-10T09:00:00+09:00" ∧
      GoTime.Format p = "2024-06-10T09:00:00-07:00" ∧
      p.unix - t.unix = 16 * 3600 ∧
      p.unix - t.unix = (t.loc.lookup t.unix).offset - (p.loc.lookup p.unix).offset) := by
  constructor
  · have ht : formattedDateTime (goRuntime zones client) "Jun 10 09:00 2024" "Asia/Tokyo" =
        .ok (GoTime.Date 2024 6 10 9 0 0 tokyo) := by
      rw [formattedDateTime_go, GoTime.LoadLocation_zone_file zones _ (by decide), hT,
        GoTime.parseFields_jun10]
      rfl
    have hp : formattedDateTime (goRuntime zones client) "Jun 10 09:00 2024"
        "Canada/Pacific" = .ok (GoTime.Date 2024 6 10 9 0 0 pacific) := by
      rw [formattedDateTime_go, GoTime.LoadLocation_zone_file zones _ (by decide), hP,
        GoTime.parseFields_jun10]
      rfl
    have htu : (GoTime.Date 2024 6 10 9 0 0 tokyo).unix = 1718010000 - 9 * 3600 := by
      rw [GoTime.Date_jun10_unix]
      have h1 := hTo 1718010000 (by norm_num) (by norm_num)
      have h2 := hTo (1718010000 - 9 * 3600) (by norm_num) (by norm_num)
      rw [h1, h2]
      norm_num
    have hpu : (GoTime.Date 2024 6 10 9 0 0 pacific).unix = 1718010000 + 8 * 3600 ∨
        (GoTime.Date 2024 6 10 9 0 0 pacific).unix = 1718010000 + 7 * 3600 := by
      rw [GoTime.Date_jun10_unix]
      have h8 := hPo (1718010000 - -8 * 3600) (by norm_num) (by norm_num)
      have h7 := hPo (1718010000 - -7 * 3600) (by norm_num) (by norm_num)
      rcases hPo 1718010000 (by norm_num) (by norm_num) with h1 | h1
      · rw [h1]
        split_ifs with ha hb
        · rcases h8 with h | h <;> rw [h] <;> norm_num
        · norm_num
        · norm_num at ha
      · rw [h1]
        split_ifs with ha hb
        · rcases h7 with h | h <;> rw [h] <;> norm_num
        · norm_num
        · norm_num at ha
    refine ⟨_, _, ht, hp, htu, ?_, ?_, ?_⟩
    · have hloc : (GoTime.Date 2024 6 10 9 0 0 tokyo).loc = tokyo := rfl
      unfold GoTime.Format
      rw [hloc, htu, hTo (1718010000 - 9 * 3600) (by norm_num) (by norm_num)]
      rfl
    · rw [htu]
      rcases hpu with h | h <;> rw [h] <;> norm_num
    · rw [htu]
      rcases hpu with h | h <;> rw [h] <;> norm_num
  · exact ⟨_, _, rfl, rfl, rfl, rfl, rfl, rfl⟩

namespace GoTime

theorem lookupFrom_some :
    ∀ (tab : List (List Char)) (k : Nat) (val : List Char) (i : Nat) (rest : List Char),
      lookupFrom tab k val = some (i, rest) →
      ∃ v, tab[i - k]? = some v ∧ k ≤ i ∧ v.length ≤ val.length ∧
        «match» (val.take v.length) v = true ∧ rest = val.drop v.length := by
  intro tab
  induction tab with
  | nil => intro k val i rest h; simp [lookupFrom] at h
  | cons v tab ih =>
    intro k val i rest h
    unfold lookupFrom at h
    split_ifs at h with hc
    · simp only [Option.some.injEq, Prod.mk.injEq] at h
      obtain ⟨rfl, rfl⟩ := h
      exact ⟨v, by simp, le_refl _, hc.1, hc.2, rfl⟩
    · obtain ⟨w, hw, hk, hlen, hm, hr⟩ := ih (k + 1) val i rest h
      refine ⟨w, ?_, by omega, hlen, hm, hr⟩
      have : i - k = (i - (k + 1)) + 1 := by omega
      rw [this, List.getElem?_cons_succ]
      exact hw

theorem shortMonthNames_length (j : Nat) (v : List Char)
    (h : shortMonthNames[j]? = some v) : v.length = 3 ∧ j < 12 := by
  have hj : j < shortMonthNames.length := by
    by_contra hc
    rw [List.getElem?_eq_none (by omega)] at h
    simp at h
  have hmem : v ∈ shortMonthNames := List.mem_iff_getElem?.mpr ⟨j, h⟩
  refine ⟨?_, hj⟩
  simp only [shortMonthNames, List.mem_cons, List.mem_singleton, List.mem_nil_iff,
    or_false] at hmem
  rcases hmem with h | h | h | h | h | h | h | h | h | h | h | h <;> rw [h] <;> rfl

theorem cutspace_spec (s : List Char) :
    ∃ k, s = List.replicate k ' ' ++ cutspace s ∧ (cutspace s).head? ≠ some ' ' := by
  induction s with
  | nil => exact ⟨0, by simp [cutspace], by simp [cutspace]⟩
  | cons c s ih =>
    unfold cutspace
    by_cases hc : c = ' '
    · obtain ⟨k, hk, hh⟩ := ih
      rw [if_pos hc]
      refine ⟨k + 1, ?_, hh⟩
      rw [List.replicate_succ, List.cons_append, ← hk, hc]
    · rw [if_neg hc]
      exact ⟨0, by simp, by simpa using hc⟩

theorem skip_space_eq (value : List Char) :
    skip value [' '] =
      if value.length > 0 ∧ value.head? ≠ some ' ' then none else some (cutspace value) := by
  have hcs : cutspace [' '] = [] := rfl
  show skipLoop 2 value [' '] = _
  simp only [skipLoop, if_true, hcs]

theorem skip_space (value rest : List Char) (h : skip value [' '] = some rest) :
    ∃ k, value = List.replicate k ' ' ++ rest ∧ rest.head? ≠ some ' ' ∧
      (rest ≠ [] → 0 < k) := by
  rw [skip_space_eq] at h
  split_ifs at h with hc
  simp only [Option.some.injEq] at h
  obtain ⟨k, hk, hh⟩ := cutspace_spec value
  rw [h] at hk hh
  refine ⟨k, hk, hh, ?_⟩
  intro hne
  by_contra hk0
  have hk0 : k = 0 := by omega
  subst hk0
  simp only [List.replicate_zero, List.nil_append] at hk
  subst hk
  apply hc
  constructor
  · exact List.length_pos.mpr hne
  · exact hh

theorem skip_colon (value rest : List Char) (h : skip value [':'] = some rest) :
    value = ':' :: rest := by
  simp only [skip, skipLoop, List.length_singleton] at h
  cases value with
  | nil => simp at h
  | cons v vs =>
    simp at h
    obtain ⟨h1, h2⟩ := h
    rw [h1, h2]

theorem getnum_some (s : List Char) (fixed : Bool) (n : Nat) (rest : List Char)
    (h : getnum s fixed = some (n, rest)) :
    ∃ d, s = d ++ rest ∧ (d.length = 2 ∨ (d.length = 1 ∧ fixed = false)) ∧ IsNumeral d n := by
  unfold getnum isDigit at h
  match s, h with
  | [], h => simp at h
  | [c0], h =>
    simp only [List.getElem?_cons_zero, List.getElem?_cons_succ, List.getElem?_nil] at h
    by_cases h0 : isDigitChar c0 = true
    · cases fixed with
      | true => simp [h0] at h
      | false =>
        simp [h0] at h
        obtain ⟨rfl, rfl⟩ := h
        exact ⟨[c0], by simp, Or.inr ⟨rfl, rfl⟩, by simpa using h0, by simp [numeralValue]⟩
    · simp [h0] at h
  | c0 :: c1 :: t, h =>
    simp only [List.getElem?_cons_zero, List.getElem?_cons_succ] at h
    by_cases h0 : isDigitChar c0 = true
    · by_cases h1 : isDigitChar c1 = true
      · simp [h0, h1] at h
        obtain ⟨rfl, rfl⟩ := h
        refine ⟨[c0, c1], by simp, Or.inl rfl, ?_, by simp [numeralValue]⟩
        intro c hc
        simp only [List.mem_cons, List.mem_singleton, List.mem_nil_iff, or_false] at hc
        rcases hc with rfl | rfl
        · exact h0
        · exact h1
      · cases fixed with
        | true => simp [h0, h1] at h
        | false =>
          simp [h0, h1] at h
          obtain ⟨rfl, rfl⟩ := h
          exact ⟨[c0], by simp, Or.inr ⟨rfl, rfl⟩, by simpa using h0, by simp [numeralValue]⟩
    · simp [h0] at h

theorem leadingIntLoop_nil :
    ∀ (s : List Char) (x y : Nat), leadingIntLoop s x = (y, []) →
      (∀ c ∈ s, isDigitChar c = true) ∧ y = s.foldl (fun x c => x * 10 + digitVal c) x := by
  intro s
  induction s with
  | nil =>
    intro x y h
    simp only [leadingIntLoop, Prod.mk.injEq, and_true] at h
    simp [h]
  | cons c s ih =>
    intro x y h
    unfold leadingIntLoop at h
    by_cases hc : isDigitChar c = true
    · rw [if_pos hc] at h
      obtain ⟨h1, h2⟩ := ih _ _ h
      refine ⟨?_, by simpa using h2⟩
      intro d hd
      rcases List.mem_cons.mp hd with rfl | hd
      · exact hc
      · exact h1 d hd
    · rw [if_neg hc] at h
      simp at h

theorem atoi_digits (s : List Char) (year : Int) (h0 : isDigit s 0 = true)
    (h : atoi s = some year) : IsNumeral s year.toNat ∧ 0 ≤ year := by
  cases s with
  | nil => simp [isDigit] at h0
  | cons c t =>
    have hc : isDigitChar c = true := by simpa [isDigit] using h0
    have hminus : c ≠ '-' := by
      rintro rfl
      exact absurd hc (by decide)
    have hplus : c ≠ '+' := by
      rintro rfl
      exact absurd hc (by decide)
    unfold atoi at h
    simp only [List.head?_cons, Option.some.injEq, hminus, hplus, or_self, if_false,
      decide_False] at h
    cases hl : leadingIntLoop (c :: t) 0 with
    | mk x r =>
      rw [hl] at h
      cases r with
      | cons a b => simp at h
      | nil =>
        simp at h
        obtain ⟨h1, h2⟩ := leadingIntLoop_nil _ _ _ hl
        subst h
        refine ⟨⟨h1, ?_⟩, by simp⟩
        simp [numeralValue, h2]

theorem IsSpaces_replicate (k : Nat) (hk : 0 < k) : IsSpaces (List.replicate k ' ') := by
  constructor
  · cases k with
    | zero => omega
    | succ k => simp [List.replicate_succ]
  · intro c hc
    exact (List.mem_replicate.mp hc).2

theorem parseFields_ok (value : List Char) (f : Fields) (h : parseFields value = .ok f) :
    FitsLayout value f := by
  unfold parseFields at h
  split at h
  · simp at h
  rename_i m v1 hlook
  simp only [] at h
  split at h
  · simp at h
  rename_i v2 hskip1
  split at h
  · simp at h
  rename_i day v3 hday
  split at h
  · simp at h
  rename_i v4 hskip2
  split at h
  · simp at h
  rename_i hour v5 hhour
  split_ifs at h with hh24
  split at h
  · simp at h
  rename_i v6 hskip3
  split at h
  · simp at h
  rename_i mi v7 hmin
  split_ifs at h with hm60
  split at h
  · simp at h
  rename_i v8 hskip4
  split_ifs at h with hy
  split at h
  · simp at h
  rename_i year hyear
  split at h
  · simp at h
  rename_i v9 hskip5
  split_ifs at h with hextra hdayr
  simp only [Except.ok.injEq] at h
  subst h
  -- month
  obtain ⟨name, hname, _, hnlen, hmatch, hv1⟩ := lookupFrom_some _ _ _ _ _ hlook
  simp only [Nat.sub_zero] at hname
  obtain ⟨hn3, hm12⟩ := shortMonthNames_length m name hname
  rw [hn3] at hnlen hmatch hv1
  -- spaces, day
  obtain ⟨k1, hk1, hhead1, hpos1⟩ := skip_space _ _ hskip1
  rw [if_neg hhead1] at hday
  obtain ⟨d, hd, hdlen, hdnum⟩ := getnum_some _ _ _ _ hday
  have hdne : d ≠ [] := by
    intro hd0
    rw [hd0] at hdlen
    simp at hdlen
  have hv2ne : v2 ≠ [] := by
    rw [hd]
    simp [hdne]
  -- spaces, hour
  obtain ⟨k2, hk2, _, hpos2⟩ := skip_space _ _ hskip2
  obtain ⟨hr, hhr, hhrlen, hhrnum⟩ := getnum_some _ _ _ _ hhour
  have hhrne : hr ≠ [] := by
    intro h0
    rw [h0] at hhrlen
    simp at hhrlen
  have hv4ne : v4 ≠ [] := by
    rw [hhr]
    simp [hhrne]
  -- colon, minute
  have hcolon := skip_colon _ _ hskip3
  obtain ⟨mm, hmm, hmmlen, hmmnum⟩ := getnum_some _ _ _ _ hmin
  have hmm2 : mm.length = 2 := by
    rcases hmmlen with h2 | ⟨_, hf⟩
    · exact h2
    · simp at hf
  -- spaces, year
  obtain ⟨k3, hk3, _, hpos3⟩ := skip_space _ _ hskip4
  simp only [not_or, not_lt, Bool.not_eq_false] at hy
  obtain ⟨hy4, hydig⟩ := hy
  have hv8ne : v8 ≠ [] := by
    intro h0
    rw [h0] at hy4
    simp at hy4
  have hskip5eq : v9 = List.drop 4 v8 := by
    simp [skip, skipLoop] at hskip5
    exact hskip5.symm
  have hdrop : List.drop 4 v8 = [] := by
    rw [← hskip5eq]
    exact List.length_eq_zero.mp (by simpa using hextra)
  have htake : List.take 4 v8 = v8 := by
    have := List.take_append_drop 4 v8
    rw [hdrop, List.append_nil] at this
    exact this
  rw [htake] at hyear
  have hylen : v8.length = 4 := by
    have := List.length_drop 4 v8
    rw [hdrop] at this
    simp only [List.length_nil] at this
    omega
  obtain ⟨hynum, hy0⟩ := atoi_digits v8 year hydig hyear
  simp only [not_or, not_lt, gt_iff_lt] at hdayr
  refine ⟨value.take 3, List.replicate k1 ' ', d, List.replicate k2 ' ', hr, mm,
    List.replicate k3 ' ', v8, ?_, ⟨?_, ?_, ?_, name, ?_, hmatch⟩,
    IsSpaces_replicate k1 (hpos1 hv2ne), ⟨?_, hdnum⟩,
    IsSpaces_replicate k2 (hpos2 hv4ne), ⟨?_, hhrnum⟩, ⟨hmm2, hmmnum⟩,
    IsSpaces_replicate k3 (hpos3 hv8ne), ⟨hylen, hynum, hy0⟩, ?_, ?_, ?_, ?_⟩
  · rw [← hk3, ← hmm, ← hcolon, ← hhr, ← hk2, ← hd, ← hk1, hv1]
    exact (List.take_append_drop 3 value).symm
  · simp only [List.length_take]
    omega
  · simp
  · simp only
    omega
  · simpa using hname
  · rcases hdlen with h2 | ⟨h1, _⟩
    · exact Or.inr h2
    · exact Or.inl h1
  · rcases hhrlen with h2 | ⟨h1, _⟩
    · exact Or.inr h2
    · exact Or.inl h1
  · simp only
    omega
  · simp only
    omega
  · simp only
    omega
  · simp only
    omega

theorem match_cons (c1 c2 : Char) (s1 s2 : List Char) :
    «match» (c1 :: s1) (c2 :: s2) =
      ((decide (c1 = c2) ||
        (decide (c1.toNat ||| 32 = c2.toNat ||| 32) && decide (97 ≤ c1.toNat ||| 32) &&
          decide (c1.toNat ||| 32 ≤ 122))) && «match» s1 s2) := by
  rw [«match»]
  generalize c1.toNat ||| 32 = d1
  generalize c2.toNat ||| 32 = d2
  by_cases h : c1 = c2
  · simp [h]
  · simp only [ne_eq, h, not_false_eq_true, if_true, decide_False, Bool.false_or]
    by_cases hc : ¬ (d1 = d2) ∨ d1 < 97 ∨ d1 > 122
    · rw [if_pos hc]
      have : (decide (d1 = d2) && decide (97 ≤ d1) && decide (d1 ≤ 122)) = false := by
        rw [Bool.eq_false_iff]
        intro ht
        simp only [Bool.and_eq_true, decide_eq_true_eq] at ht
        omega
      rw [this]
      rfl
    · rw [if_neg hc]
      have : (decide (d1 = d2) && decide (97 ≤ d1) && decide (d1 ≤ 122)) = true := by
        simp only [Bool.and_eq_true, decide_eq_true_eq]
        omega
      rw [this]
      rfl

theorem match_trans :
    ∀ (a b c : List Char), a.length = b.length → a.length = c.length →
      «match» a b = true → «match» a c = true → «match» b c = true := by
  intro a
  induction a with
  | nil =>
    intro b c hb hc _ _
    have hb0 : b = [] := List.length_eq_zero.mp hb.symm
    subst hb0
    simp [«match»]
  | cons x a ih =>
    intro b c hb hc hab hac
    cases b with
    | nil => simp at hb
    | cons y b =>
      cases c with
      | nil => simp at hc
      | cons z c =>
        rw [match_cons] at hab hac ⊢
        simp only [Bool.and_eq_true, Bool.or_eq_true, decide_eq_true_eq] at hab hac ⊢
        refine ⟨?_, ih b c (by simpa using hb) (by simpa using hc) hab.2 hac.2⟩
        rcases hab.1 with hxy | ⟨⟨hxy, h1⟩, h2⟩
        · subst hxy
          exact hac.1
        · rcases hac.1 with hxz | ⟨⟨hxz, _⟩, _⟩
          · subst hxz
            right
            exact ⟨⟨hxy.symm, by omega⟩, by omega⟩
          · right
            exact ⟨⟨by omega, by omega⟩, by omega⟩

theorem shortMonthNames_distinct :
    ∀ i < 12, ∀ j < 12,
      «match» (shortMonthNames.getD i []) (shortMonthNames.getD j []) = true → i = j := by
  decide

theorem lookupFrom_first :
    ∀ (tab : List (List Char)) (k i : Nat) (mon rest name : List Char),
      (∀ v ∈ tab, v.length = 3) → mon.length = 3 → tab[i]? = some name →
      «match» mon name = true →
      (∀ j < i, ∀ v, tab[j]? = some v → «match» mon v = false) →
      lookupFrom tab k (mon ++ rest) = some (k + i, rest) := by
  intro tab
  induction tab with
  | nil => intro k i mon rest name _ _ h; simp at h
  | cons v tab ih =>
    intro k i mon rest name hlen hmon hname hmatch hfirst
    have hv : v.length = 3 := hlen v (List.mem_cons_self _ _)
    have htake : List.take 3 (mon ++ rest) = mon := by
      rw [List.take_append_of_le_length (by omega), List.take_of_length_le (by omega)]
    have hdrop : List.drop 3 (mon ++ rest) = rest := by
      rw [← hmon, List.drop_left]
    unfold lookupFrom
    rw [hv, htake, hdrop]
    cases i with
    | zero =>
      simp only [List.getElem?_cons_zero, Option.some.injEq] at hname
      subst hname
      rw [if_pos ⟨by simp; omega, hmatch⟩]
      rfl
    | succ i =>
      have h0 := hfirst 0 (by omega) v (by simp)
      rw [if_neg (by simp [h0])]
      rw [List.getElem?_cons_succ] at hname
      have := ih (k + 1) i mon rest name (fun w hw => hlen w (List.mem_cons_of_mem _ hw)) hmon
        hname hmatch (fun j hj w hw => hfirst (j + 1) (by omega) w (by simpa using hw))
      rw [this]
      congr 2
      omega

theorem lookup_month (mon rest name : List Char) (i : Nat) (hmon : mon.length = 3)
    (hname : shortMonthNames[i]? = some name) (hmatch : «match» mon name = true) :
    lookup shortMonthNames (mon ++ rest) = some (i, rest) := by
  have hall : ∀ v ∈ shortMonthNames, v.length = 3 := by
    intro v hv
    obtain ⟨j, hj⟩ := List.mem_iff_getElem?.mp hv
    exact (shortMonthNames_length j v hj).1
  have hi := (shortMonthNames_length i name hname).2
  have := lookupFrom_first shortMonthNames 0 i mon rest name hall hmon hname hmatch (by
    intro j hj v hv
    by_contra hne
    have hjm : «match» mon v = true := by simpa using hne
    have hv3 := (shortMonthNames_length j v hv).1
    have hn3 := (shortMonthNames_length i name hname).1
    have hvn := match_trans mon v name (by omega) (by omega) hjm hmatch
    have hgj : shortMonthNames.getD j [] = v := by
      rw [List.getD_eq_getElem?_getD, hv]; rfl
    have hgi : shortMonthNames.getD i [] = name := by
      rw [List.getD_eq_getElem?_getD, hname]; rfl
    have := shortMonthNames_distinct j (by omega) i hi (by rw [hgj, hgi]; exact hvn)
    omega)
  simpa [lookup] using this

theorem cutspace_spaces (sp rest : List Char) (hsp : ∀ c ∈ sp, c = ' ')
    (hrest : rest.head? ≠ some ' ') : cutspace (sp ++ rest) = rest := by
  induction sp with
  | nil =>
    cases rest with
    | nil => rfl
    | cons c r =>
      have : c ≠ ' ' := by simpa using hrest
      simp [cutspace, this]
  | cons c sp ih =>
    have hc : c = ' ' := hsp c (List.mem_cons_self _ _)
    rw [List.cons_append, cutspace, if_pos hc]
    exact ih (fun d hd => hsp d (List.mem_cons_of_mem _ hd))

theorem skip_spaces (sp rest : List Char) (hsp : IsSpaces sp)
    (hrest : rest.head? ≠ some ' ') : skip (sp ++ rest) [' '] = some rest := by
  rw [skip_space_eq, cutspace_spaces sp rest hsp.2 hrest]
  cases sp with
  | nil => exact absurd rfl hsp.1
  | cons c sp =>
    have hc : c = ' ' := hsp.2 c (List.mem_cons_self _ _)
    rw [if_neg]
    simp [hc]

theorem digit_head (d rest : List Char) (hd : ∀ c ∈ d, isDigitChar c = true) (hne : d ≠ []) :
    (d ++ rest).head? ≠ some ' ' := by
  cases d with
  | nil => exact absurd rfl hne
  | cons c d =>
    have hc := hd c (List.mem_cons_self _ _)
    simp only [List.cons_append, List.head?_cons, ne_eq, Option.some.injEq]
    rintro rfl
    exact absurd hc (by decide)

theorem getnum_digits (d rest : List Char) (fixed : Bool) (n : Nat) (hnum : IsNumeral d n)
    (hlen : d.length = 2 ∨ (d.length = 1 ∧ fixed = false ∧ isDigit rest 0 = false)) :
    getnum (d ++ rest) fixed = some (n, rest) := by
  obtain ⟨hdig, hval⟩ := hnum
  rcases hlen with h2 | ⟨h1, hf, hr⟩
  · match d, h2, hdig, hval with
    | [c0, c1], _, hdig, hval =>
      have h0 := hdig c0 (by simp)
      have h1 := hdig c1 (by simp)
      simp [getnum, isDigit, h0, h1]
      simpa [numeralValue] using hval
  · match d, h1, hdig, hval with
    | [c0], _, hdig, hval =>
      have h0 := hdig c0 (by simp)
      have hr1 : isDigit (c0 :: rest) 1 = false := by
        simpa [isDigit] using hr
      subst hf
      simp only [List.singleton_append, getnum, hr1]
      simp [isDigit, h0]
      simpa [numeralValue] using hval

theorem leadingIntLoop_digits :
    ∀ (s : List Char) (x : Nat), (∀ c ∈ s, isDigitChar c = true) →
      leadingIntLoop s x = (s.foldl (fun x c => x * 10 + digitVal c) x, []) := by
  intro s
  induction s with
  | nil => intro x _; rfl
  | cons c s ih =>
    intro x h
    rw [leadingIntLoop, if_pos (h c (List.mem_cons_self _ _))]
    exact ih _ (fun d hd => h d (List.mem_cons_of_mem _ hd))

theorem atoi_numeral (y : List Char) (n : Nat) (hnum : IsNumeral y n) (hne : y ≠ []) :
    atoi y = some (n : Int) := by
  obtain ⟨hdig, hval⟩ := hnum
  cases y with
  | nil => exact absurd rfl hne
  | cons c t =>
    have hc := hdig c (List.mem_cons_self _ _)
    have hminus : c ≠ '-' := by
      rintro rfl
      exact absurd hc (by decide)
    have hplus : c ≠ '+' := by
      rintro rfl
      exact absurd hc (by decide)
    unfold atoi
    simp only [List.head?_cons, Option.some.injEq, hminus, hplus, or_self, if_false,
      decide_False]
    rw [leadingIntLoop_digits _ _ hdig]
    simp only [numeralValue] at hval
    simp [hval]

theorem parseFields_of_fits (value : List Char) (f : Fields) (h : FitsLayout value f) :
    parseFields value = .ok f := by
  obtain ⟨mon, s1, d, s2, hr, mi, s3, y, hvalue, ⟨hmon, hm1, hm12, name, hname, hmatch⟩, hs1,
    ⟨hdlen, hdnum⟩, hs2, ⟨hhlen, hhnum⟩, ⟨hmilen, hminum⟩, hs3, ⟨hylen, hynum, hy0⟩, hh24,
    hm60, hday1, hdaym⟩ := h
  have hdne : d ≠ [] := by
    intro h0; rw [h0] at hdlen; simp at hdlen
  have hhne : hr ≠ [] := by
    intro h0; rw [h0] at hhlen; simp at hhlen
  have hyne : y ≠ [] := by
    intro h0; rw [h0] at hylen; simp at hylen
  have hs2head : isDigit (s2 ++ (hr ++ (':' :: (mi ++ (s3 ++ y))))) 0 = false := by
    cases s2 with
    | nil => exact absurd rfl hs2.1
    | cons c s2 =>
      have hc : c = ' ' := hs2.2 c (List.mem_cons_self _ _)
      subst hc
      have hsp : isDigitChar ' ' = false := by decide
      simp [isDigit, hsp]
  have hcolon : isDigit (':' :: (mi ++ (s3 ++ y))) 0 = false := by
    have hcl : isDigitChar ':' = false := by decide
    simp [isDigit, hcl]
  have e1 := lookup_month mon (s1 ++ (d ++ (s2 ++ (hr ++ (':' :: (mi ++ (s3 ++ y)))))))
    name (f.month - 1) hmon hname hmatch
  have e2 := skip_spaces s1 (d ++ (s2 ++ (hr ++ (':' :: (mi ++ (s3 ++ y)))))) hs1
    (digit_head d _ hdnum.1 hdne)
  have e3 := getnum_digits d (s2 ++ (hr ++ (':' :: (mi ++ (s3 ++ y))))) false f.day hdnum
    (by rcases hdlen with h | h
        · exact Or.inr ⟨h, rfl, hs2head⟩
        · exact Or.inl h)
  have e4 := skip_spaces s2 (hr ++ (':' :: (mi ++ (s3 ++ y)))) hs2
    (digit_head hr _ hhnum.1 hhne)
  have e5 := getnum_digits hr (':' :: (mi ++ (s3 ++ y))) false f.hour hhnum
    (by rcases hhlen with h | h
        · exact Or.inr ⟨h, rfl, hcolon⟩
        · exact Or.inl h)
  have e6 : skip (':' :: (mi ++ (s3 ++ y))) [':'] = some (mi ++ (s3 ++ y)) := by
    simp [skip, skipLoop]
  have e7 := getnum_digits mi (s3 ++ y) true f.min hminum (Or.inl hmilen)
  have e8 := skip_spaces s3 y hs3 (by simpa using digit_head y [] hynum.1 hyne)
  have e9 : atoi (List.take 4 y) = some f.year := by
    rw [List.take_of_length_le (by omega), atoi_numeral y _ hynum hyne]
    congr 1
    exact Int.toNat_of_nonneg hy0
  have e10 : isDigit y 0 = true := by
    cases y with
    | nil => exact absurd rfl hyne
    | cons c t => simpa [isDigit] using hynum.1 c (List.mem_cons_self _ _)
  have e11 : List.drop 4 y = [] := List.drop_of_length_le (by omega)
  have hmonth : f.month - 1 + 1 = f.month := by omega
  unfold parseFields
  rw [hvalue, e1]
  simp only []
  rw [e2]
  simp only []
  rw [if_neg (digit_head d _ hdnum.1 hdne), e3]
  simp only []
  rw [e4]
  simp only []
  rw [e5]
  simp only []
  rw [if_neg (by omega), e6]
  simp only []
  rw [e7]
  simp only []
  rw [if_neg (by omega), e8]
  simp only []
  rw [if_neg (by simp [e10]; omega), e9]
  simp only []
  rw [e11]
  simp only [skip, skipLoop, List.length_nil, ne_eq, not_true_eq_false, if_false, hmonth]
  rw [if_neg (by omega)]

/-! ### The calendar of the model -/

theorem daysSinceEpoch_split (year : Int) :
    ∃ a b c e : Int, 0 ≤ b ∧ b ≤ 3 ∧ 0 ≤ c ∧ c ≤ 24 ∧ 0 ≤ e ∧ e ≤ 3 ∧
      year = 400 * a + 100 * b + 4 * c + e - 292277022399 ∧
      daysSinceEpoch year = 146097 * a + 36524 * b + 1461 * c + 365 * e := by
  refine ⟨(year - absoluteZeroYear) / 400,
    (year - absoluteZeroYear - 400 * ((year - absoluteZeroYear) / 400)) / 100,
    (year - absoluteZeroYear - 400 * ((year - absoluteZeroYear) / 400) -
      100 * ((year - absoluteZeroYear - 400 * ((year - absoluteZeroYear) / 400)) / 100)) / 4,
    (year - absoluteZeroYear - 400 * ((year - absoluteZeroYear) / 400) -
      100 * ((year - absoluteZeroYear - 400 * ((year - absoluteZeroYear) / 400)) / 100)) -
      4 * ((year - absoluteZeroYear - 400 * ((year - absoluteZeroYear) / 400) -
      100 * ((year - absoluteZeroYear - 400 * ((year - absoluteZeroYear) / 400)) / 100)) / 4),
    ?_, ?_, ?_, ?_, ?_, ?_, ?_, ?_⟩
  all_goals simp only [daysSinceEpoch, absoluteZeroYear, daysPer400Years, daysPer100Years,
    daysPer4Years]
  all_goals omega

theorem year_stage (a b c e yday year : Int) (hb0 : 0 ≤ b) (hb : b ≤ 3) (hc0 : 0 ≤ c)
    (hc : c ≤ 24) (he0 : 0 ≤ e) (he : e ≤ 3)
    (hyear : year = 400 * a + 100 * b + 4 * c + e - 292277022399) (h0 : 0 ≤ yday)
    (h1 : yday < 365 ∨ (yday = 365 ∧ year % 4 = 0 ∧ (year % 100 ≠ 0 ∨ year % 400 = 0))) :
    (146097 * a + 36524 * b + 1461 * c + 365 * e + yday) / 146097 = a ∧
    ((36524 * b + 1461 * c + 365 * e + yday) / 36524 -
      (36524 * b + 1461 * c + 365 * e + yday) / 36524 / 4) = b ∧
    (1461 * c + 365 * e + yday) / 1461 = c ∧
    ((365 * e + yday) / 365 - (365 * e + yday) / 365 / 4) = e := by
  have hleap365 : yday = 365 → e = 3 ∧ (c ≠ 24 ∨ b = 3) := by
    intro h
    rcases h1 with h1 | ⟨_, h4, h100⟩
    · omega
    · have he3 : e = 3 := by omega
      refine ⟨he3, ?_⟩
      by_contra hcon
      have hc24 : c = 24 := by omega
      have hb3 : b ≠ 3 := by omega
      subst he3 hc24
      omega
  have hyd : yday ≤ 365 := by omega
  refine ⟨by omega, ?_, by omega, ?_⟩
  · by_cases hfull : 1461 * c + 365 * e + yday = 36524
    · have hb3 : b = 3 := by
        have : yday = 365 := by omega
        have := hleap365 this
        omega
      subst hb3
      have : (36524 * 3 + 1461 * c + 365 * e + yday) / 36524 = 4 := by omega
      rw [this]
      decide
    · have hlt : 1461 * c + 365 * e + yday < 36524 := by
        by_cases h365 : yday = 365
        · have := hleap365 h365
          omega
        · omega
      have : (36524 * b + 1461 * c + 365 * e + yday) / 36524 = b := by omega
      rw [this]
      omega
  · by_cases h365 : yday = 365
    · have := hleap365 h365
      have he3 : e = 3 := this.1
      subst he3 h365
      decide
    · have : (365 * e + yday) / 365 = e := by omega
      rw [this]
      omega

theorem absDate_eq (abs : Int) :
    absDate abs = yearDayDate (absYearDay abs).1 (absYearDay abs).2 := rfl

theorem yearDayDate_eq (year day : Int) :
    yearDayDate year day =
      (year, (ydayMonthDay (isLeap year) day).1, (ydayMonthDay (isLeap year) day).2) := by
  unfold yearDayDate ydayMonthDay
  by_cases h : isLeap year = true ∧ day = 31 + 29 - 1
  · rw [if_pos h, if_pos h]
  · rw [if_neg h, if_neg h]

theorem absYearDay_civil (year yday secs : Int) (h0 : 0 ≤ yday)
    (h1 : yday < 365 ∨ (yday = 365 ∧ year % 4 = 0 ∧ (year % 100 ≠ 0 ∨ year % 400 = 0)))
    (hs0 : 0 ≤ secs) (hs : secs < 86400) :
    absYearDay ((daysSinceEpoch year + yday) * 86400 + secs) = (year, yday) := by
  obtain ⟨a, b, c, e, hb0, hb, hc0, hc, he0, he, hyear, hdays⟩ := daysSinceEpoch_split year
  obtain ⟨s1, s2, s3, s4⟩ := year_stage a b c e yday year hb0 hb hc0 hc he0 he hyear h0 h1
  rw [hdays]
  have e0 : ((146097 * a + 36524 * b + 1461 * c + 365 * e + yday) * 86400 + secs) / 86400 =
      146097 * a + 36524 * b + 1461 * c + 365 * e + yday := by omega
  have k1 : secondsPerDay = 86400 := rfl
  have k2 : daysPer400Years = 146097 := rfl
  have k3 : daysPer100Years = 36524 := rfl
  have k4 : daysPer4Years = 1461 := rfl
  have k5 : absoluteZeroYear = -292277022399 := rfl
  simp only [absYearDay, k1, k2, k3, k4, k5, e0, s1]
  have r1 : 146097 * a + 36524 * b + 1461 * c + 365 * e + yday - 146097 * a =
      36524 * b + 1461 * c + 365 * e + yday := by ring
  simp only [r1, s2]
  have r2 : 36524 * b + 1461 * c + 365 * e + yday - 36524 * b = 1461 * c + 365 * e + yday := by
    ring
  simp only [r2, s3]
  have r3 : 1461 * c + 365 * e + yday - 1461 * c = 365 * e + yday := by ring
  simp only [r3, s4]
  have r4 : 365 * e + yday - 365 * e = yday := by ring
  simp only [r4]
  congr 1
  omega

theorem ydayMonthDay_table :
    ∀ leap : Bool, ∀ month : Nat, month < 13 → ∀ day : Nat, day < 32 →
      (1 ≤ month ∧ 1 ≤ day ∧
        ((day : Nat) : Int) ≤ (if month = 2 ∧ leap = true then 29
          else daysBefore.getD month 0 - daysBefore.getD (month - 1) 0)) →
      ydayMonthDay leap (daysBefore.getD (month - 1) 0 +
        (if leap = true ∧ ((month : Nat) : Int) ≥ 3 then 1 else 0) + (((day : Nat) : Int) - 1)) =
        (((month : Nat) : Int), ((day : Nat) : Int)) := by
  decide

theorem yday_table :
    ∀ leap : Bool, ∀ month : Nat, month < 13 → ∀ day : Nat, day < 32 →
      (1 ≤ month ∧ 1 ≤ day ∧
        ((day : Nat) : Int) ≤ (if month = 2 ∧ leap = true then 29
          else daysBefore.getD month 0 - daysBefore.getD (month - 1) 0)) →
      0 ≤ daysBefore.getD (month - 1) 0 +
          (if leap = true ∧ ((month : Nat) : Int) ≥ 3 then 1 else 0) + (((day : Nat) : Int) - 1) ∧
        (daysBefore.getD (month - 1) 0 +
            (if leap = true ∧ ((month : Nat) : Int) ≥ 3 then 1 else 0) +
            (((day : Nat) : Int) - 1) < 365 ∨
          (daysBefore.getD (month - 1) 0 +
              (if leap = true ∧ ((month : Nat) : Int) ≥ 3 then 1 else 0) +
              (((day : Nat) : Int) - 1) = 365 ∧ leap = true)) := by
  decide

theorem daysIn_le (month : Nat) (year : Int) (hm1 : 1 ≤ month) (hm12 : month ≤ 12) :
    daysIn month year ≤ 31 := by
  unfold daysIn
  interval_cases month <;> split_ifs <;> simp [daysBefore]

theorem norm_id (hi lo base : Int) (h0 : 0 ≤ lo) (h1 : lo < base) :
    norm hi lo base = (hi, lo) := by
  unfold norm
  rw [if_neg (by omega)]
  simp only []
  rw [if_neg (by omega)]

theorem Date_unix (year month day hour min sec : Int) (loc : Location) :
    (Date year month day hour min sec loc).unix =
      (if (loc.lookup (Date year month day hour min sec UTC).unix).offset ≠ 0 then
        (Date year month day hour min sec UTC).unix -
          (if (Date year month day hour min sec UTC).unix -
                (loc.lookup (Date year month day hour min sec UTC).unix).offset <
                (loc.lookup (Date year month day hour min sec UTC).unix).start ∨
              (Date year month day hour min sec UTC).unix -
                (loc.lookup (Date year month day hour min sec UTC).unix).offset ≥
                (loc.lookup (Date year month day hour min sec UTC).unix).stop then
            (loc.lookup ((Date year month day hour min sec UTC).unix -
              (loc.lookup (Date year month day hour min sec UTC).unix).offset)).offset
          else (loc.lookup (Date year month day hour min sec UTC).unix).offset)
      else (Date year month day hour min sec UTC).unix) ∧
    (Date year month day hour min sec loc).loc = loc := by
  constructor <;> rfl

theorem Date_UTC_unix (year month day hour min sec : Int) :
    (Date year month day hour min sec UTC).unix =
      ((if isLeap (norm year (month - 1) 12).1 = true ∧
            (norm year (month - 1) 12).2 + 1 ≥ 3 then
          daysSinceEpoch (norm year (month - 1) 12).1 +
            daysBefore.getD ((norm year (month - 1) 12).2 + 1 - 1).toNat 0 + 1
        else
          daysSinceEpoch (norm year (month - 1) 12).1 +
            daysBefore.getD ((norm year (month - 1) 12).2 + 1 - 1).toNat 0) +
          ((norm day (norm hour (norm min sec 60).1 60).1 24).1 - 1)) * secondsPerDay +
        ((norm day (norm hour (norm min sec 60).1 60).1 24).2 * secondsPerHour +
          (norm hour (norm min sec 60).1 60).2 * secondsPerMinute + (norm min sec 60).2) +
        (absoluteToInternal + internalToUnix) := rfl

theorem readingUTC_eq (f : Fields) (hm1 : 1 ≤ f.month) (hm12 : f.month ≤ 12)
    (hh : f.hour < 24) (hmi : f.min < 60) :
    readingUTC f =
      (daysSinceEpoch f.year + (daysBefore.getD (f.month - 1) 0 +
          (if isLeap f.year = true ∧ (f.month : Int) ≥ 3 then 1 else 0) +
          ((f.day : Int) - 1))) * 86400 +
        ((f.hour : Int) * 3600 + (f.min : Int) * 60) +
        (absoluteToInternal + internalToUnix) := by
  have n1 := norm_id f.year ((f.month : Int) - 1) 12 (by omega) (by omega)
  have n2 := norm_id (f.min : Int) 0 60 (by omega) (by omega)
  have n3 := norm_id (f.hour : Int) (f.min : Int) 60 (by omega) (by omega)
  have n4 := norm_id (f.day : Int) (f.hour : Int) 24 (by omega) (by omega)
  have hidx : ((f.month : Int) - 1 + 1 - 1).toNat = f.month - 1 := by omega
  have hge : ((f.month : Int) - 1 + 1 ≥ 3) ↔ ((f.month : Int) ≥ 3) := by omega
  have k1 : secondsPerDay = 86400 := rfl
  have k2 : secondsPerHour = 3600 := rfl
  have k3 : secondsPerMinute = 60 := rfl
  unfold readingUTC
  rw [Date_UTC_unix, n1, n2, n3, n4, hidx, k1, k2, k3]
  simp only [hge]
  split_ifs <;> ring

theorem absDate_reading (f : Fields) (hm1 : 1 ≤ f.month) (hm12 : f.month ≤ 12)
    (hd1 : 1 ≤ f.day) (hdm : (f.day : Int) ≤ daysIn f.month f.year) (hh : f.hour < 24)
    (hmi : f.min < 60) :
    absDate (readingUTC f + (unixToInternal + internalToAbsolute)) =
        (f.year, (f.month : Int), (f.day : Int)) ∧
      absClock (readingUTC f + (unixToInternal + internalToAbsolute)) =
        ((f.hour : Int), (f.min : Int), 0) := by
  have hd31 : f.day < 32 := by
    have := daysIn_le f.month f.year hm1 hm12
    omega
  have hdm' : (f.day : Int) ≤ (if f.month = 2 ∧ isLeap f.year = true then 29
      else daysBefore.getD f.month 0 - daysBefore.getD (f.month - 1) 0) := hdm
  have htab := ydayMonthDay_table (isLeap f.year) f.month (by omega) f.day hd31
    ⟨hm1, hd1, hdm'⟩
  obtain ⟨hy0, hy1⟩ := yday_table (isLeap f.year) f.month (by omega) f.day hd31
    ⟨hm1, hd1, hdm'⟩
  have hleap : isLeap f.year = true →
      f.year % 4 = 0 ∧ (f.year % 100 ≠ 0 ∨ f.year % 400 = 0) := by
    intro h
    simpa [isLeap] using h
  have hcancel : ∀ x : Int, x + (absoluteToInternal + internalToUnix) +
      (unixToInternal + internalToAbsolute) = x := by
    intro x
    simp only [internalToUnix, internalToAbsolute]
    ring
  rw [readingUTC_eq f hm1 hm12 hh hmi, hcancel]
  constructor
  · rw [absDate_eq, absYearDay_civil f.year _ ((f.hour : Int) * 3600 + (f.min : Int) * 60) hy0
      (by
        rcases hy1 with h | ⟨h, hl⟩
        · exact Or.inl h
        · exact Or.inr ⟨h, hleap hl⟩)
      (by omega) (by omega)]
    simp only []
    rw [yearDayDate_eq, htab]
  · have k1 : secondsPerDay = 86400 := rfl
    have k2 : secondsPerHour = 3600 := rfl
    have k3 : secondsPerMinute = 60 := rfl
    generalize daysSinceEpoch f.year + (daysBefore.getD (f.month - 1) 0 +
      (if isLeap f.year = true ∧ (f.month : Int) ≥ 3 then 1 else 0) + ((f.day : Int) - 1)) = D
    simp only [absClock, k1, k2, k3]
    have e1 : (D * 86400 + ((f.hour : Int) * 3600 + (f.min : Int) * 60)) % 86400 =
        (f.hour : Int) * 3600 + (f.min : Int) * 60 := by omega
    rw [e1]
    have e2 : ((f.hour : Int) * 3600 + (f.min : Int) * 60) / 3600 = (f.hour : Int) := by omega
    rw [e2]
    have e3 : (f.hour : Int) * 3600 + (f.min : Int) * 60 - (f.hour : Int) * 3600 =
        (f.min : Int) * 60 := by ring
    rw [e3]
    have e4 : (f.min : Int) * 60 / 60 = (f.min : Int) := by omega
    rw [e4]
    simp

theorem FitsLayout_ranges (value : List Char) (f : Fields) (h : FitsLayout value f) :
    1 ≤ f.month ∧ f.month ≤ 12 ∧ 1 ≤ f.day ∧ (f.day : Int) ≤ daysIn f.month f.year ∧
      f.hour < 24 ∧ f.min < 60 := by
  obtain ⟨_, _, _, _, _, _, _, _, _, ⟨_, hm1, hm12, _⟩, _, _, _, _, _, _, _, hh, hmi, hd1,
    hdm⟩ := h
  exact ⟨hm1, hm12, hd1, hdm, hh, hmi⟩

theorem Date_reading (f : Fields) (loc : Location) :
    (Date f.year f.month f.day f.hour f.min 0 loc).loc = loc ∧
    ((Date f.year f.month f.day f.hour f.min 0 loc).unix =
        readingUTC f - (loc.lookup (readingUTC f)).offset ∨
      (Date f.year f.month f.day f.hour f.min 0 loc).unix =
        readingUTC f -
          (loc.lookup (readingUTC f - (loc.lookup (readingUTC f)).offset)).offset) ∧
    ((loc.lookup (readingUTC f - (loc.lookup (readingUTC f)).offset)).offset =
        (loc.lookup (readingUTC f)).offset →
      (Date f.year f.month f.day f.hour f.min 0 loc).unix =
        readingUTC f - (loc.lookup (readingUTC f)).offset) := by
  obtain ⟨hu, hl⟩ := Date_unix f.year f.month f.day f.hour f.min 0 loc
  have hW : (Date f.year f.month f.day f.hour f.min 0 UTC).unix = readingUTC f := rfl
  rw [hW] at hu
  generalize (Date f.year f.month f.day f.hour f.min 0 loc).unix = u at hu ⊢
  generalize readingUTC f = W at hu ⊢
  generalize hs : loc.lookup W = span at hu ⊢
  generalize (loc.lookup (W - span.offset)).offset = o2 at hu ⊢
  refine ⟨hl, ?_, ?_⟩
  · split_ifs at hu with h1 h2
    · exact Or.inr hu
    · exact Or.inl hu
    · left
      have h0 : span.offset = 0 := by
        by_contra hne
        exact h1 hne
      omega
  · intro hsame
    split_ifs at hu with h1 h2
    · omega
    · exact hu
    · have h0 : span.offset = 0 := by
        by_contra hne
        exact h1 hne
      omega

end GoTime

/-- C10 (malformed dates are rejected): over any set of zone files,
`formattedDateTime` returns the error of `LoadLocation` when the zone
identifier is unknown (any name other than "", "UTC" and "Local" without a
zone file is), and for a known one it returns an error for every text that
does not fit the layout `"Jan _2 15:04 2006"`; when it does return an instant,
the text has all five fields, with hour below 24, minute below 60 and a day of
the month, and the instant is the one of exactly these fields, never a wrapped
one.  A missing field ("Jan 2024"), an hour of 25, a minute of 60, a day or a
year that is not a number, a missing year and the empty text are all errors;
a text that fits the layout in a known zone is accepted. -/
theorem formattedDateTime_rejects (zones : GoTime.ZoneSources)
    (client : Event → Except GoTime.Error String) (raw zone : String) :
    (∀ err, GoTime.LoadLocation zones zone = .error err →
      formattedDateTime (goRuntime zones client) raw zone = .error err) ∧
    (zone ≠ "" → zone ≠ "UTC" → zone ≠ "Local" → zones.load zone = none →
      ∃ err, formattedDateTime (goRuntime zones client) raw zone = .error err) ∧
    ((¬ ∃ f, GoTime.FitsLayout raw.data f) →
      ∃ err, formattedDateTime (goRuntime zones client) raw zone = .error err) ∧
    (∀ t, formattedDateTime (goRuntime zones client) raw zone = .ok t →
      ∃ loc f, GoTime.LoadLocation zones zone = .ok loc ∧ GoTime.FitsLayout raw.data f ∧
        t = GoTime.Date f.year f.month f.day f.hour f.min 0 loc) ∧
    (∀ bad ∈ ["Jan 2024", "Jan  2 25:00 2024", "Jan  2 15:60 2024", "Jan  x 15:04 2024",
        "Jan  2 15:04 20x4", "Jan  2 15:04", ""],
      ∃ err, formattedDateTime (goRuntime zones client) bad zone = .error err) ∧
    (∀ loc f, GoTime.LoadLocation zones zone = .ok loc → GoTime.FitsLayout raw.data f →
      formattedDateTime (goRuntime zones client) raw zone =
        .ok (GoTime.Date f.year f.month f.day f.hour f.min 0 loc)) := by
  have hload : ∀ err, GoTime.LoadLocation zones zone = .error err →
      formattedDateTime (goRuntime zones client) raw zone = .error err := by
    intro err hz
    rw [formattedDateTime_go, hz]
  have hok : ∀ t, formattedDateTime (goRuntime zones client) raw zone = .ok t →
      ∃ loc f, GoTime.LoadLocation zones zone = .ok loc ∧ GoTime.FitsLayout raw.data f ∧
        t = GoTime.Date f.year f.month f.day f.hour f.min 0 loc := by
    intro t ht
    rw [formattedDateTime_go] at ht
    cases hz : GoTime.LoadLocation zones zone with
    | error err => rw [hz] at ht; simp at ht
    | ok loc =>
      rw [hz] at ht
      simp only [] at ht
      cases hp : GoTime.parseFields raw.data with
      | error err => rw [hp] at ht; simp at ht
      | ok f =>
        rw [hp] at ht
        simp only [Except.ok.injEq] at ht
        exact ⟨loc, f, rfl, GoTime.parseFields_ok _ _ hp, ht.symm⟩
  refine ⟨hload, ?_, ?_, hok, ?_, ?_⟩
  rotate_right
  · intro loc f hz hf
    rw [formattedDateTime_go, hz, GoTime.parseFields_of_fits _ _ hf]
  · intro h1 h2 h3 hz
    refine ⟨.unknownTimeZone zone, hload _ ?_⟩
    unfold GoTime.LoadLocation
    rw [if_neg (by simp [h1, h2]), if_neg h3, hz]
    split_ifs <;> rfl
  · intro hfit
    cases hr : formattedDateTime (goRuntime zones client) raw zone with
    | error err => exact ⟨err, rfl⟩
    | ok t =>
      obtain ⟨_, f, _, hf, _⟩ := hok t hr
      exact absurd ⟨f, hf⟩ hfit
  · intro bad hbad
    simp only [List.mem_cons, List.mem_singleton, List.mem_nil_iff, or_false] at hbad
    rcases hbad with rfl | rfl | rfl | rfl | rfl | rfl | rfl
    · exact formattedDateTime_go_error zones client _ zone (.cannotParse " ") rfl
    · exact formattedDateTime_go_error zones client _ zone (.outOfRange "hour") rfl
    · exact formattedDateTime_go_error zones client _ zone (.outOfRange "minute") rfl
    · exact formattedDateTime_go_error zones client _ zone (.cannotParse "_2") rfl
    · exact formattedDateTime_go_error zones client _ zone (.cannotParse "2006") rfl
    · exact formattedDateTime_go_error zones client _ zone (.cannotParse "2006") rfl
    · exact formattedDateTime_go_error zones client _ zone (.cannotParse "Jan") rfl

/-- Instance of C10 under the zone data of 2024: an hour of 25 in a known zone,
and a well-formed text in an unknown zone. -/
theorem formattedDateTime_rejects_witness :
    formattedDateTime (goRuntime tzdata2024 acceptingClient) "Jan  2 25:00 2024" "Asia/Tokyo" =
      .error (.parse (.outOfRange "hour")) ∧
    formattedDateTime (goRuntime tzdata2024 acceptingClient) "Jan  2 15:04 2024" "Mars/Base" =
      .error (.unknownTimeZone "Mars/Base") ∧
    (∃ err, formattedDateTime (goRuntime tzdata2024 acceptingClient) "Jan 2024"
      "Asia/Tokyo" = .error err) :=
  ⟨rfl, rfl,
    (formattedDateTime_rejects tzdata2024 acceptingClient "" "Asia/Tokyo").2.2.2.2.1
      "Jan 2024" (by simp)⟩

theorem Time_Date_of_reading (t : GoTime.Time) (f : GoTime.Fields) (value : List Char)
    (hfit : GoTime.FitsLayout value f)
    (h : t.unix + (t.loc.lookup t.unix).offset = GoTime.readingUTC f) :
    t.Date = (f.year, (f.month : Int), (f.day : Int)) ∧
      t.Clock = ((f.hour : Int), (f.min : Int), 0) := by
  obtain ⟨hm1, hm12, hd1, hdm, hh, hmi⟩ := GoTime.FitsLayout_ranges value f hfit
  unfold GoTime.Time.Date GoTime.Time.Clock GoTime.Time.abs
  rw [h]
  exact GoTime.absDate_reading f hm1 hm12 hd1 hdm hh hmi

/-- C9, as stated, fails: the reading "Mar 10 02:30 2024" does not exist in
Canada/Pacific in 2024 (the clocks go from 02:00 to 03:00), and the instant
`formattedDateTime` returns for it is the one of "Mar 10 01:30 2024": its wall
clock in the supplied zone is 01:30, not the reading. -/
theorem formattedDateTime_zone_anchored_counterexample :
    ∃ t s : GoTime.Time,
      formattedDateTime (goRuntime tzdata2024 acceptingClient) "Mar 10 02:30 2024"
        "Canada/Pacific" = .ok t ∧
      formattedDateTime (goRuntime tzdata2024 acceptingClient) "Mar 10 01:30 2024"
        "Canada/Pacific" = .ok s ∧
      t.unix = s.unix ∧
      t.Date = (2024, 3, 10) ∧ t.Clock = (1, 30, 0) ∧ t.Clock ≠ (2, 30, 0) ∧
      GoTime.Format t = "2024-03-10T01:30:00-08:00" :=
  ⟨_, _, rfl, rfl, rfl, rfl, rfl, by decide, rfl⟩

/-- C9, amended: for every text that fits the layout and every zone that
loads, `formattedDateTime` succeeds, and the instant it returns is the instant
at which UTC shows the reading, moved by an offset of the supplied zone: the
offset the zone has at that UTC instant, or the one it has at the instant the
first offset leads to.  When these two offsets are the same (always so for a
zone with one offset), and more generally whenever the zone is at the
subtracted offset at the returned instant, the reading is interpreted as local
time in the supplied zone: date and clock of the returned instant in the zone
are exactly the reading.  So "Jun 10 09:00 2024" succeeds in Asia/Tokyo and in
Canada/Pacific with two different instants, the one of Tokyo 16 or 17 hours
earlier (16 hours with the zone data of 2024, the difference of the offsets). -/
theorem formattedDateTime_zone_anchored (zones : GoTime.ZoneSources)
    (client : Event → Except GoTime.Error String) (raw zone : String)
    (loc : GoTime.Location) (f : GoTime.Fields)
    (hload : GoTime.LoadLocation zones zone = .ok loc)
    (hfit : GoTime.FitsLayout raw.data f) :
    (∃ t : GoTime.Time,
      formattedDateTime (goRuntime zones client) raw zone = .ok t ∧
      (t.unix = GoTime.readingUTC f - (loc.lookup (GoTime.readingUTC f)).offset ∨
        t.unix = GoTime.readingUTC f -
          (loc.lookup (GoTime.readingUTC f - (loc.lookup (GoTime.readingUTC f)).offset)).offset) ∧
      ((loc.lookup (GoTime.readingUTC f - (loc.lookup (GoTime.readingUTC f)).offset)).offset =
          (loc.lookup (GoTime.readingUTC f)).offset →
        t.unix = GoTime.readingUTC f - (loc.lookup (GoTime.readingUTC f)).offset ∧
        t.unix + (t.loc.lookup t.unix).offset = GoTime.readingUTC f) ∧
      (t.unix + (t.loc.lookup t.unix).offset = GoTime.readingUTC f →
        t.Date = (f.year, (f.month : Int), (f.day : Int)) ∧
        t.Clock = ((f.hour : Int), (f.min : Int), 0))) ∧
    ((GoTime.Date f.year f.month f.day f.hour f.min 0 GoTime.UTC).unix = GoTime.readingUTC f ∧
      (GoTime.Date f.year f.month f.day f.hour f.min 0 GoTime.UTC).Date =
        (f.year, (f.month : Int), (f.day : Int)) ∧
      (GoTime.Date f.year f.month f.day f.hour f.min 0 GoTime.UTC).Clock =
        ((f.hour : Int), (f.min : Int), 0)) ∧
    (∀ tokyo pacific : GoTime.Location,
      zones.load "Asia/Tokyo" = some tokyo → zones.load "Canada/Pacific" = some pacific →
      (∀ sec, 1717923600 ≤ sec → sec ≤ 1718096400 → (tokyo.lookup sec).offset = 9 * 3600) →
      (∀ sec, 1717923600 ≤ sec → sec ≤ 1718096400 →
        (pacific.lookup sec).offset = -8 * 3600 ∨ (pacific.lookup sec).offset = -7 * 3600) →
      ∃ t p : GoTime.Time,
        formattedDateTime (goRuntime zones client) "Jun 10 09:00 2024" "Asia/Tokyo" = .ok t ∧
        formattedDateTime (goRuntime zones client) "Jun 10 09:00 2024" "Canada/Pacific" =
          .ok p ∧
        t.unix = 1718010000 - 9 * 3600 ∧
        GoTime.Format t = "2024-06-10T09:00:00+09:00" ∧
        t.unix ≠ p.unix ∧
        (p.unix - t.unix = 16 * 3600 ∨ p.unix - t.unix = 17 * 3600)) ∧
    (∃ t p : GoTime.Time,
      formattedDateTime (goRuntime tzdata2024 client) "Jun 10 09:00 2024" "Asia/Tokyo" =
        .ok t ∧
      formattedDateTime (goRuntime tzdata2024 client) "Jun 10 09:00 2024" "Canada/Pacific" =
        .ok p ∧
      GoTime.Format t = "2024-06-10T09:00:00+09:00" ∧
      GoTime.Format p = "2024-06-10T09:00:00-07:00" ∧
      p.unix - t.unix = 16 * 3600 ∧
      p.unix - t.unix = (t.loc.lookup t.unix).offset - (p.loc.lookup p.unix).offset) := by
  have hutc : (GoTime.Date f.year f.month f.day f.hour f.min 0 GoTime.UTC).unix +
      ((GoTime.Date f.year f.month f.day f.hour f.min 0 GoTime.UTC).loc.lookup
        (GoTime.Date f.year f.month f.day f.hour f.min 0 GoTime.UTC).unix).offset =
      GoTime.readingUTC f := by
    rw [(GoTime.Date_unix f.year f.month f.day f.hour f.min 0 GoTime.UTC).2]
    show GoTime.readingUTC f + 0 = GoTime.readingUTC f
    omega
  obtain ⟨hl, hdisj, himp⟩ := GoTime.Date_reading f loc
  refine ⟨⟨GoTime.Date f.year f.month f.day f.hour f.min 0 loc, ?_, hdisj, ?_, ?_⟩,
    ⟨rfl, Time_Date_of_reading _ f raw.data hfit hutc⟩, ?_, ?_⟩
  · rw [formattedDateTime_go, hload, GoTime.parseFields_of_fits _ _ hfit]
  · intro hsame
    have hval := himp hsame
    refine ⟨hval, ?_⟩
    rw [hl, hval, hsame]
    omega
  · exact Time_Date_of_reading _ f raw.data hfit
  · intro tokyo pacific hT hP hTo hPo
    exact (jun10_tokyo_pacific zones client tokyo pacific hT hP hTo hPo).1
  · exact (jun10_tokyo_pacific tzdata2024 client (fixedZone "Asia/Tokyo" (9 * 3600))
      (dstZone "Canada/Pacific" (-8 * 3600) (-7 * 3600) 1699174800 1710064800 1730624400
        1741514400) rfl rfl (fun _ _ _ => rfl)
      (fun sec h1 h2 => Or.inr (by
        simp only [dstZone]
        rw [if_neg (by omega), if_pos (by omega)]))).2

/-- Instance of the amended C9 at "Jun 10 09:00 2024" in Canada/Pacific under
the zone data of 2024: the instant is 16:00 UTC, seven hours after the UTC
reading, and its date and clock in the zone are the reading. -/
theorem formattedDateTime_zone_anchored_witness :
    GoTime.LoadLocation tzdata2024 "Canada/Pacific" =
      .ok (dstZone "Canada/Pacific" (-8 * 3600) (-7 * 3600) 1699174800 1710064800 1730624400
        1741514400) ∧
    GoTime.FitsLayout "Jun 10 09:00 2024".data
      { year := 2024, month := 6, day := 10, hour := 9, min := 0 } ∧
    ∃ t : GoTime.Time,
      formattedDateTime (goRuntime tzdata2024 acceptingClient) "Jun 10 09:00 2024"
        "Canada/Pacific" = .ok t ∧
      t.unix = 1718010000 + 7 * 3600 ∧
      t.Date = (2024, 6, 10) ∧ t.Clock = (9, 0, 0) := by
  have hfit : GoTime.FitsLayout "Jun 10 09:00 2024".data
      { year := 2024, month := 6, day := 10, hour := 9, min := 0 } :=
    GoTime.parseFields_ok _ _ rfl
  obtain ⟨⟨t, ht, _, hsame, hdate⟩, _⟩ :=
    formattedDateTime_zone_anchored tzdata2024 acceptingClient "Jun 10 09:00 2024"
      "Canada/Pacific"
      (dstZone "Canada/Pacific" (-8 * 3600) (-7 * 3600) 1699174800 1710064800 1730624400
        1741514400)
      { year := 2024, month := 6, day := 10, hour := 9, min := 0 } rfl hfit
  obtain ⟨hval, hloc⟩ := hsame rfl
  exact ⟨rfl, hfit, t, ht, hval, hdate hloc⟩

end ETicket
